import Mathlib

set_option maxHeartbeats 1000000
set_option maxRecDepth 4000

namespace Webcal

/-! ## Definitions -/

/-! ### Python string primitives -/

/-- The whitespace characters stripped by Python's `str.strip()`
(ASCII subset; ICS input is ASCII). -/
def pyIsSpace (c : Char) : Bool :=
  c = ' ' || c = '\t' || c = '\n' || c = '\r' || c = '\x0b' || c = '\x0c'

def pyStripChars (cs : List Char) : List Char :=
  ((cs.dropWhile pyIsSpace).reverse.dropWhile pyIsSpace).reverse

/-- Python `line.strip()`. -/
def pyStrip (s : String) : String := ⟨pyStripChars s.data⟩

def pySplitlinesAux : List Char → List Char → List String
  | [], acc => if acc.isEmpty then [] else [⟨acc.reverse⟩]
  | '\r' :: '\n' :: rest, acc => ⟨acc.reverse⟩ :: pySplitlinesAux rest []
  | '\r' :: rest, acc => ⟨acc.reverse⟩ :: pySplitlinesAux rest []
  | '\n' :: rest, acc => ⟨acc.reverse⟩ :: pySplitlinesAux rest []
  | c :: rest, acc => pySplitlinesAux rest (c :: acc)

/-- Python `str.splitlines()` for the line boundaries `\n`, `\r\n`, `\r`
(the ones that occur in ICS text); no trailing empty line for a trailing
newline, and `"".splitlines() == []`. -/
def pySplitlines (s : String) : List String := pySplitlinesAux s.data []

def splitColonAux : List Char → Option (List Char × List Char)
  | [] => none
  | c :: rest =>
    if c = ':' then some ([], rest)
    else (splitColonAux rest).map (fun p => (c :: p.1, p.2))

/-- Python `line.split(":", 1)` guarded by `":" in line`: `none` when the
line has no colon, otherwise the parts before and after the first colon. -/
def splitColon (s : String) : Option (String × String) :=
  (splitColonAux s.data).map (fun p => (⟨p.1⟩, ⟨p.2⟩))

/-! ### Python dict (insertion ordered, last-write-wins on the value) -/

/-- A `RawEventRecord`: a Python dict from ICS key to raw value, kept in
insertion order. -/
abbrev PyDict := List (String × String)

/-- `current[key] = val`: overwrite in place if the key exists (keeping its
position), otherwise append. -/
def dictSet (d : PyDict) (k v : String) : PyDict :=
  if d.any (fun p => p.1 == k) then d.map (fun p => if p.1 == k then (k, v) else p)
  else d ++ [(k, v)]

/-- `item.keys()` in insertion order. -/
def dictKeys (d : PyDict) : List String := d.map Prod.fst

/-- `item[k]` as an `Option` (a `KeyError` is `none`). -/
def dictGet? (d : PyDict) (k : String) : Option String :=
  (d.find? (fun p => p.1 == k)).map Prod.snd

/-- `item.get(k, dflt)`. -/
def dictGetD (d : PyDict) (k dflt : String) : String := (dictGet? d k).getD dflt

/-! ### ICS Event Extractor (`parse_events`) -/

structure ExtState where
  events : List PyDict
  current : PyDict
  in_event : Bool

/-- One iteration of the line loop in `parse_events`. -/
def parseEventsLine (st : ExtState) (rawLine : String) : ExtState :=
  let line := pyStrip rawLine
  if line = "BEGIN:VEVENT" then { st with in_event := true, current := [] }
  else if line = "END:VEVENT" then
    { st with in_event := false, events := st.events ++ [st.current] }
  else if !st.in_event then st
  else
    match splitColon line with
    | some (k, v) => { st with current := dictSet st.current k v }
    | none => st

/-- `parse_events(ics_text)`. -/
def parse_events (ics_text : String) : List PyDict :=
  ((pySplitlines ics_text).foldl parseEventsLine ⟨[], [], false⟩).events

/-- Number of lines of the input that strip to `END:VEVENT`. -/
def endLineCount (s : String) : Nat :=
  ((pySplitlines s).map pyStrip).count "END:VEVENT"

/-! ### C4: one record per BEGIN/END pair -/

/-- The subsequence of stripped lines that are VEVENT delimiters. -/
def icsMarkers (s : String) : List String :=
  ((pySplitlines s).map pyStrip).filter
    (fun l => l == "BEGIN:VEVENT" || l == "END:VEVENT")

/-- `n` properly matched `BEGIN:VEVENT`/`END:VEVENT` pairs. -/
def pairSeq : Nat → List String
  | 0 => []
  | n + 1 => "BEGIN:VEVENT" :: "END:VEVENT" :: pairSeq n

/-! ### Timestamp parsing: `parse_dt`, i.e. CPython
`datetime.strptime(val, "%Y%m%dT%H%M%S")` followed by
`.replace(tzinfo=ZoneInfo(DEFAULT_TIMEZONE))`.

CPython's `_strptime` compiles the format to the regex
`(\d\d\d\d)(1[0-2]|0[1-9]|[1-9])(3[01]|[12]\d|0[1-9]|[1-9])T(2[0-3]|[0-1]\d|\d)([0-5]\d|\d)([0-5]\d|\d)`,
matches it with backtracking at the start of the string, raises ValueError
when unconverted data remains, and then builds `datetime(...)`, which
validates the day against the month.  Each field matcher below returns its
candidate `(value, rest)` pairs in the regex's alternation order and the
driver takes the first global match that consumes the whole string. -/

def DEFAULT_TIMEZONE : String := "America/Los_Angeles"

def isDig (c : Char) : Bool := '0' ≤ c && c ≤ '9'

def dval (c : Char) : Nat := c.toNat - 48

/-- `%Y`: exactly four digits. -/
def matchY : List Char → List (Nat × List Char)
  | a :: b :: c :: d :: rest =>
    if isDig a && isDig b && isDig c && isDig d then
      [(dval a * 1000 + dval b * 100 + dval c * 10 + dval d, rest)]
    else []
  | _ => []

/-- `%m`: `1[0-2]|0[1-9]|[1-9]`. -/
def matchMonth : List Char → List (Nat × List Char)
  | a :: b :: rest =>
    (if a = '1' && ('0' ≤ b && b ≤ '2') then [(10 + dval b, rest)] else [])
    ++ (if a = '0' && ('1' ≤ b && b ≤ '9') then [(dval b, rest)] else [])
    ++ (if '1' ≤ a && a ≤ '9' then [(dval a, b :: rest)] else [])
  | [a] => if '1' ≤ a && a ≤ '9' then [(dval a, [])] else []
  | [] => []

/-- `%d`: `3[01]|[12]\d|0[1-9]|[1-9]`. -/
def matchDay : List Char → List (Nat × List Char)
  | a :: b :: rest =>
    (if a = '3' && ('0' ≤ b && b ≤ '1') then [(30 + dval b, rest)] else [])
    ++ (if ('1' ≤ a && a ≤ '2') && isDig b then [(dval a * 10 + dval b, rest)] else [])
    ++ (if a = '0' && ('1' ≤ b && b ≤ '9') then [(dval b, rest)] else [])
    ++ (if '1' ≤ a && a ≤ '9' then [(dval a, b :: rest)] else [])
  | [a] => if '1' ≤ a && a ≤ '9' then [(dval a, [])] else []
  | [] => []

/-- `%H`: `2[0-3]|[0-1]\d|\d`. -/
def matchHour : List Char → List (Nat × List Char)
  | a :: b :: rest =>
    (if a = '2' && ('0' ≤ b && b ≤ '3') then [(20 + dval b, rest)] else [])
    ++ (if ('0' ≤ a && a ≤ '1') && isDig b then [(dval a * 10 + dval b, rest)] else [])
    ++ (if isDig a then [(dval a, b :: rest)] else [])
  | [a] => if isDig a then [(dval a, [])] else []
  | [] => []

/-- `%M` and `%S`: `[0-5]\d|\d`. -/
def matchMS : List Char → List (Nat × List Char)
  | a :: b :: rest =>
    (if ('0' ≤ a && a ≤ '5') && isDig b then [(dval a * 10 + dval b, rest)] else [])
    ++ (if isDig a then [(dval a, b :: rest)] else [])
  | [a] => if isDig a then [(dval a, [])] else []
  | [] => []

/-- The compiled format regex, matched with backtracking; `none` when no
alternative consumes the entire string ("unconverted data remains"). -/
def strptimeYmdTHMS (cs : List Char) : Option (Nat × Nat × Nat × Nat × Nat × Nat) :=
  (matchY cs).findSome? fun ym =>
  (matchMonth ym.2).findSome? fun mm =>
  (matchDay mm.2).findSome? fun dm =>
  match dm.2 with
  | 'T' :: r4 =>
    (matchHour r4).findSome? fun hm =>
    (matchMS hm.2).findSome? fun mim =>
    (matchMS mim.2).findSome? fun sm =>
    if sm.2.isEmpty then some (ym.1, mm.1, dm.1, hm.1, mim.1, sm.1) else none
  | _ => none

def isLeapYear (y : Nat) : Bool := (y % 4 = 0 && y % 100 ≠ 0) || y % 400 = 0

def daysInMonth (y m : Nat) : Nat :=
  if m = 2 then (if isLeapYear y then 29 else 28)
  else if m = 4 || m = 6 || m = 9 || m = 11 then 30
  else 31

/-- A timezone-annotated wall-clock instant (Python aware `datetime`; the
program only ever attaches the one fixed zone). -/
structure DateTime where
  year : Nat
  month : Nat
  day : Nat
  hour : Nat
  minute : Nat
  second : Nat
  tz : String
deriving DecidableEq, Repr

/-- `parse_dt(val)`: strptime with the fixed format, then attach the fixed
timezone.  `none` models the ValueError path.  The `datetime` constructor
re-validates MINYEAR and the day-of-month; month/hour/minute/second ranges
are already enforced by the field patterns above. -/
def parse_dt (val : String) : Option DateTime :=
  match strptimeYmdTHMS val.data with
  | none => none
  | some (y, m, d, h, mi, s) =>
    if 1 ≤ y ∧ 1 ≤ d ∧ d ≤ daysInMonth y m then
      some ⟨y, m, d, h, mi, s, DEFAULT_TIMEZONE⟩
    else none

/-! ### Event Normalizer: the per-record body of `parse_webcal` -/

/-- The exceptions the normalizer loop can raise. -/
inductive NormErr where
  /-- `IndexError` from `[k for k in keys if k.startswith(...)][0]`. -/
  | missingField
  /-- `KeyError` from `item["SUMMARY"]` inside the skip-logging call. -/
  | summaryKeyError
  /-- `ValueError` from `datetime.strptime`. -/
  | dateParse
deriving DecidableEq, Repr

/-- A NormalizedEvent: `{"start": ..., "end": ..., "summary": ...}`
(`endTime` models the `"end"` entry). -/
structure NEvent where
  start : DateTime
  endTime : DateTime
  summary : String
deriving DecidableEq, Repr

def listPrefixOf : List Char → List Char → Bool
  | [], _ => true
  | _ :: _, [] => false
  | a :: s, b :: t => a == b && listPrefixOf s t

/-- Python `s.startswith(p)`. -/
def strStartsWith (s p : String) : Bool := listPrefixOf p.data s.data

def infixOfAux (sub : List Char) : List Char → Bool
  | [] => sub.isEmpty
  | c :: rest => listPrefixOf sub (c :: rest) || infixOfAux sub rest

/-- Python `sub in s` (substring test). -/
def strContains (s sub : String) : Bool := infixOfAux sub.data s.data

/-- `[k for k in keys if k.startswith("DTSTART")][0]` as an `Option`. -/
def locatedStartKey (item : PyDict) : Option String :=
  ((dictKeys item).filter (fun k => strStartsWith k "DTSTART")).head?

/-- `[k for k in keys if k.startswith("DTEND")][0]` as an `Option`. -/
def locatedEndKey (item : PyDict) : Option String :=
  ((dictKeys item).filter (fun k => strStartsWith k "DTEND")).head?

/-- The body of the `for item in data` loop in `parse_webcal`:
`.ok none` is the all-day skip, `.ok (some ev)` appends the event,
`.error` models an uncaught exception. -/
def normRecord (item : PyDict) : Except NormErr (Option NEvent) :=
  match locatedStartKey item with
  | none => .error .missingField
  | some start_key =>
    match locatedEndKey item with
    | none => .error .missingField
    | some end_key =>
      if strContains start_key "VALUE=DATE" || strContains end_key "VALUE=DATE" then
        -- logging.info("Skipping all-day event: %s", item["SUMMARY"])
        match dictGet? item "SUMMARY" with
        | none => .error .summaryKeyError
        | some _ => .ok none
      else
        match parse_dt (dictGetD item start_key "") with
        | none => .error .dateParse
        | some ds =>
          match parse_dt (dictGetD item end_key "") with
          | none => .error .dateParse
          | some de => .ok (some ⟨ds, de, dictGetD item "SUMMARY" "No Summary"⟩)

/-- The whole `for item in data` loop: an exception aborts, skips add
nothing, events accumulate in record order. -/
def normAll : List PyDict → Except NormErr (List NEvent)
  | [] => .ok []
  | item :: rest =>
    match normRecord item with
    | .error e => .error e
    | .ok none => normAll rest
    | .ok (some ev) =>
      match normAll rest with
      | .error e => .error e
      | .ok evs => .ok (ev :: evs)

/-- `parse_webcal` with the external fetch factored out: the argument is
the fetched ICS body. -/
def parse_webcal (text : String) : Except NormErr (List NEvent) :=
  normAll (parse_events text)

/-! ### Dates and strftime-style formatting -/

/-- A Python `date` (what `datetime.date()` returns). -/
structure Date where
  year : Nat
  month : Nat
  day : Nat
deriving DecidableEq, Repr

def DateTime.toDate (dt : DateTime) : Date := ⟨dt.year, dt.month, dt.day⟩

/-- `tomorrow_date = today_date + timedelta(days=1)`. -/
def dateSucc (d : Date) : Date :=
  if d.day < daysInMonth d.year d.month then ⟨d.year, d.month, d.day + 1⟩
  else if d.month < 12 then ⟨d.year, d.month + 1, 1⟩
  else ⟨d.year + 1, 1, 1⟩

def monthName (m : Nat) : String :=
  ["January", "February", "March", "April", "May", "June", "July",
   "August", "September", "October", "November", "December"].getD (m - 1) ""

/-- Day of week, 0 = Sunday, by Sakamoto's method over the proleptic
Gregorian calendar (what `date.strftime("%A")` uses). -/
def dayOfWeek (y m d : Nat) : Nat :=
  let t := [0, 3, 2, 5, 0, 3, 5, 1, 4, 6, 2, 4]
  let y2 := if m < 3 then y - 1 else y
  (y2 + y2 / 4 - y2 / 100 + y2 / 400 + t.getD (m - 1) 0 + d) % 7

def weekdayName (w : Nat) : String :=
  ["Sunday", "Monday", "Tuesday", "Wednesday", "Thursday", "Friday",
   "Saturday"].getD w ""

def pad2 (n : Nat) : String := if n < 10 then "0" ++ toString n else toString n

/-- `d.strftime("%A, %B %d")`. -/
def strftimeADB (d : Date) : String :=
  weekdayName (dayOfWeek d.year d.month d.day) ++ ", " ++ monthName d.month
    ++ " " ++ pad2 d.day

/-- Python `s.lstrip("0")`. -/
def pyLstripZeros (s : String) : String := ⟨s.data.dropWhile (fun c => c == '0')⟩

/-- `dt.strftime("%I:%M %p").lstrip("0")`: 12-hour clock, AM/PM, leading
zeros on the hour stripped. -/
def fmtTime (dt : DateTime) : String :=
  let h12 := if dt.hour % 12 = 0 then 12 else dt.hour % 12
  let ampm := if dt.hour < 12 then "AM" else "PM"
  pyLstripZeros (pad2 h12 ++ ":" ++ pad2 dt.minute ++ " " ++ ampm)

/-! ### JSON values (the Python dict/list/str/int trees the program builds;
object fields keep dict insertion order) -/

inductive Json where
  | str (s : String)
  | num (n : Int)
  | arr (elems : List Json)
  | obj (fields : List (String × Json))

/-- `payload[k]` on a JSON object. -/
def jsonGet? (j : Json) (k : String) : Option Json :=
  match j with
  | .obj fields => (fields.find? (fun p => p.1 == k)).map Prod.snd
  | _ => none

/-! ### Payload Builder (`build_payload`) -/

/-- The per-event dict `{"start": ..., "end": ..., "summary": ...}`. -/
def eventData (event : NEvent) : Json :=
  .obj [("start", .str (fmtTime event.start)),
        ("end", .str (fmtTime event.endTime)),
        ("summary", .str event.summary)]

/-- One iteration of `build_payload`'s loop: append the event's dict to the
`today` bucket exactly when its start date equals `today_date`, else to the
`tomorrow` bucket.  The two mutated `events` lists are an explicit pair. -/
def buildStep (today_date : Date) (acc : List Json × List Json) (event : NEvent) :
    List Json × List Json :=
  if event.start.toDate == today_date then (acc.1 ++ [eventData event], acc.2)
  else (acc.1, acc.2 ++ [eventData event])

/-- `build_payload(keep_events, today_date, tomorrow_date)`. -/
def build_payload (keep_events : List NEvent) (today_date tomorrow_date : Date) : Json :=
  let evs := keep_events.foldl (buildStep today_date) ([], [])
  .obj [("today", .obj [("date", .str (strftimeADB today_date)),
                        ("year", .num (today_date.year : Int)),
                        ("timezone", .str DEFAULT_TIMEZONE),
                        ("events", .arr evs.1)]),
        ("tomorrow", .obj [("date", .str (strftimeADB tomorrow_date)),
                           ("year", .num (tomorrow_date.year : Int)),
                           ("timezone", .str DEFAULT_TIMEZONE),
                           ("events", .arr evs.2)])]

/-! ### The run-level filter and stable sort in `main` -/

/-- The sort key of `lambda e: e["start"]`: with one fixed zone on every
datetime, Python's aware-datetime comparison is the lexicographic order on
the wall-clock tuple (offset resolution inside a DST transition lives in
the external zoneinfo database, outside this embedding). -/
abbrev DTKey := Nat ×ₗ Nat ×ₗ Nat ×ₗ Nat ×ₗ Nat ×ₗ Nat

def dtKey (dt : DateTime) : DTKey :=
  toLex (dt.year, toLex (dt.month, toLex (dt.day,
    toLex (dt.hour, toLex (dt.minute, dt.second)))))

/-- The comparison `list.sort` uses. -/
abbrev sortRel (a b : NEvent) : Prop := dtKey a.start ≤ dtKey b.start

instance : IsTotal NEvent sortRel := ⟨fun _ _ => le_total _ _⟩

instance : IsTrans NEvent sortRel := ⟨fun _ _ _ h1 h2 => le_trans h1 h2⟩

/-- `event["start"].date() in [today_date, tomorrow_date]`. -/
def keepPred (today_date tomorrow_date : Date) (e : NEvent) : Bool :=
  e.start.toDate == today_date || e.start.toDate == tomorrow_date

/-- The accumulation of `keep_events` across the calendar sources of one
run (`evss` lists each source's normalized events in enumeration order). -/
def collectKeep (evss : List (List NEvent)) (today_date tomorrow_date : Date) :
    List NEvent :=
  evss.foldl (fun acc evs => acc ++ evs.filter (keepPred today_date tomorrow_date)) []

/-- `keep_events.sort(key=lambda e: e["start"])`: Python's sort is stable,
and a stable sort under a total preorder is extensionally unique, so
insertion sort is the same function. -/
def sortKeep (l : List NEvent) : List NEvent := List.insertionSort sortRel l

/-- The event list `main` hands to `build_payload`. -/
def mainKeepSorted (evss : List (List NEvent)) (today_date tomorrow_date : Date) :
    List NEvent :=
  sortKeep (collectKeep evss today_date tomorrow_date)

/-! ### `json.dumps(payload, sort_keys=True)` (CPython, `ensure_ascii=True`,
default separators `", "` and `": "`) -/

def hexDigChar (n : Nat) : Char :=
  if n < 10 then Char.ofNat (48 + n) else Char.ofNat (87 + n)

def hex4 (v : Nat) : List Char :=
  [hexDigChar (v / 4096 % 16), hexDigChar (v / 256 % 16),
   hexDigChar (v / 16 % 16), hexDigChar (v % 16)]

/-- CPython's `json` string escaping with `ensure_ascii=True`: the two-char
escapes for quote, backslash and the named control characters, `\uXXXX`
for other controls and all non-ASCII codepoints, surrogate pairs above the
BMP; printable ASCII passes through. -/
def escChar (c : Char) : List Char :=
  if c = '"' then ['\\', '"']
  else if c = '\\' then ['\\', '\\']
  else if c = '\n' then ['\\', 'n']
  else if c = '\r' then ['\\', 'r']
  else if c = '\t' then ['\\', 't']
  else if c.toNat = 8 then ['\\', 'b']
  else if c.toNat = 12 then ['\\', 'f']
  else if c.toNat < 32 then '\\' :: 'u' :: hex4 c.toNat
  else if c.toNat < 127 then [c]
  else if c.toNat < 65536 then '\\' :: 'u' :: hex4 c.toNat
  else
    ('\\' :: 'u' :: hex4 (55296 + (c.toNat - 65536) / 1024))
      ++ ('\\' :: 'u' :: hex4 (56320 + (c.toNat - 65536) % 1024))

/-- `json.dumps` of a string: quote and escape. -/
def encStr (s : String) : String := ⟨'"' :: (s.data.map escChar).flatten ++ ['"']⟩

/-- The order `sorted(dict.items())` induces on serialized fields:
lexicographic (by code point, as Python compares `str`) on the key, then on
the dumped value.  Keys are unique in every dict the program builds, so the
value leg never decides; carrying it makes the relation antisymmetric. -/
def pairLE (a b : String × String) : Prop :=
  a.1.data < b.1.data ∨ (a.1 = b.1 ∧ a.2.data ≤ b.2.data)

instance : DecidableRel pairLE := fun a b => by
  unfold pairLE; infer_instance

instance : IsTotal (String × String) pairLE := by
  constructor
  intro a b
  rcases lt_trichotomy a.1.data b.1.data with h | h | h
  · exact Or.inl (Or.inl h)
  · have hk : a.1 = b.1 := String.ext h
    rcases le_total a.2.data b.2.data with h2 | h2
    · exact Or.inl (Or.inr ⟨hk, h2⟩)
    · exact Or.inr (Or.inr ⟨hk.symm, h2⟩)
  · exact Or.inr (Or.inl h)

instance : IsTrans (String × String) pairLE := by
  constructor
  intro a b c hab hbc
  rcases hab with h1 | ⟨h1, h1v⟩
  · rcases hbc with h2 | ⟨h2, _⟩
    · exact Or.inl (lt_trans h1 h2)
    · exact Or.inl (h2 ▸ h1)
  · rcases hbc with h2 | ⟨h2, h2v⟩
    · exact Or.inl (h1 ▸ h2)
    · exact Or.inr ⟨h1.trans h2, le_trans h1v h2v⟩

instance : IsAntisymm (String × String) pairLE := by
  constructor
  intro a b hab hba
  rcases hab with h1 | ⟨h1, h1v⟩
  · rcases hba with h2 | ⟨h2, _⟩
    · exact absurd (lt_trans h1 h2) (lt_irrefl _)
    · exact absurd h1 (h2 ▸ lt_irrefl _)
  · rcases hba with h2 | ⟨_, h2v⟩
    · exact absurd h2 (h1 ▸ lt_irrefl _)
    · exact Prod.ext h1 (String.ext (le_antisymm h1v h2v))

/-- `sorted(items)` on already-serialized fields. -/
def sortPairs (l : List (String × String)) : List (String × String) :=
  List.insertionSort pairLE l

/-- `sep.join(parts)`. -/
def joinSep (sep : String) : List String → String
  | [] => ""
  | [x] => x
  | x :: xs => x ++ sep ++ joinSep sep xs

mutual
/-- `json.dumps(j, sort_keys=True)`.  Object fields are serialized and
then sorted; since the sort compares keys first and dict keys are unique,
this commutes with CPython's `sorted(dict.items())`-then-serialize. -/
def dumps : Json → String
  | .str s => encStr s
  | .num n => toString n
  | .arr es => "[" ++ joinSep ", " (dumpsList es) ++ "]"
  | .obj fs => "\x7b" ++ joinSep ", "
      ((sortPairs (dumpsFields fs)).map (fun kv => encStr kv.1 ++ ": " ++ kv.2))
      ++ "\x7d"

def dumpsList : List Json → List String
  | [] => []
  | j :: js => dumps j :: dumpsList js

def dumpsFields : List (String × Json) → List (String × String)
  | [] => []
  | (k, v) :: fs => (k, dumps v) :: dumpsFields fs
end

/-! ### `.encode("utf-8")` and MD5 (RFC 1321) -/

def utf8Bytes (c : Char) : List Nat :=
  let n := c.toNat
  if n < 128 then [n]
  else if n < 2048 then [192 + n / 64, 128 + n % 64]
  else if n < 65536 then [224 + n / 4096, 128 + n / 64 % 64, 128 + n % 64]
  else [240 + n / 262144, 128 + n / 4096 % 64, 128 + n / 64 % 64, 128 + n % 64]

def strUtf8 (s : String) : List Nat := (s.data.map utf8Bytes).flatten

/-- `2 ^ 32`. -/
def w32 : Nat := 4294967296

/-- The 64 constants `floor(abs(sin(i + 1)) * 2^32)` of RFC 1321. -/
def md5K : List Nat :=
  [3614090360, 3905402710, 606105819, 3250441966,
   4118548399, 1200080426, 2821735955, 4249261313,
   1770035416, 2336552879, 4294925233, 2304563134,
   1804603682, 4254626195, 2792965006, 1236535329,
   4129170786, 3225465664, 643717713, 3921069994,
   3593408605, 38016083, 3634488961, 3889429448,
   568446438, 3275163606, 4107603335, 1163531501,
   2850285829, 4243563512, 1735328473, 2368359562,
   4294588738, 2272392833, 1839030562, 4259657740,
   2763975236, 1272893353, 4139469664, 3200236656,
   681279174, 3936430074, 3572445317, 76029189,
   3654602809, 3873151461, 530742520, 3299628645,
   4096336452, 1126891415, 2878612391, 4237533241,
   1700485571, 2399980690, 4293915773, 2240044497,
   1873313359, 4264355552, 2734768916, 1309151649,
   4149444226, 3174756917, 718787259, 3951481745]

/-- The per-round left-rotation amounts of RFC 1321. -/
def md5S : List Nat :=
  [7, 12, 17, 22, 7, 12, 17, 22, 7, 12, 17, 22, 7, 12, 17, 22,
   5, 9, 14, 20, 5, 9, 14, 20, 5, 9, 14, 20, 5, 9, 14, 20,
   4, 11, 16, 23, 4, 11, 16, 23, 4, 11, 16, 23, 4, 11, 16, 23,
   6, 10, 15, 21, 6, 10, 15, 21, 6, 10, 15, 21, 6, 10, 15, 21]

/-- 32-bit complement of `x < 2^32`. -/
def bnot32 (x : Nat) : Nat := 4294967295 - x

def rotl32 (x s : Nat) : Nat := ((x <<< s) ||| (x >>> (32 - s))) % w32

/-- MD5 padding: `0x80`, zeros to 56 mod 64, 8-byte little-endian bit
length. -/
def md5Pad (msg : List Nat) : List Nat :=
  let zeros := (120 - (msg.length + 1) % 64) % 64
  let bitLen := msg.length * 8
  msg ++ [128] ++ List.replicate zeros 0
      ++ [bitLen % 256, bitLen / 256 % 256, bitLen / 65536 % 256,
          bitLen / 16777216 % 256, bitLen / 4294967296 % 256,
          bitLen / 1099511627776 % 256, bitLen / 281474976710656 % 256,
          bitLen / 72057594037927936 % 256]

set_option linter.unusedVariables false in
def chunks64 (bs : List Nat) : List (List Nat) :=
  if h : bs = [] then []
  else bs.take 64 :: chunks64 (bs.drop 64)
termination_by bs.length
decreasing_by
  rw [List.length_drop]
  have hl : bs.length ≠ 0 := fun hz => h (List.length_eq_zero.mp hz)
  omega

/-- Little-endian 32-bit words of a 64-byte chunk. -/
def leWords : List Nat → List Nat
  | b0 :: b1 :: b2 :: b3 :: rest =>
    (b0 + b1 * 256 + b2 * 65536 + b3 * 16777216) :: leWords rest
  | _ => []

def md5Round (M : List Nat) (st : Nat × Nat × Nat × Nat) (i : Nat) :
    Nat × Nat × Nat × Nat :=
  let a := st.1
  let b := st.2.1
  let c := st.2.2.1
  let d := st.2.2.2
  let f :=
    if i < 16 then (b &&& c) ||| (bnot32 b &&& d)
    else if i < 32 then (d &&& b) ||| (bnot32 d &&& c)
    else if i < 48 then b ^^^ c ^^^ d
    else c ^^^ (b ||| bnot32 d)
  let g :=
    if i < 16 then i
    else if i < 32 then (5 * i + 1) % 16
    else if i < 48 then (3 * i + 5) % 16
    else (7 * i) % 16
  let tmp := (a + f + md5K.getD i 0 + M.getD g 0) % w32
  (d, (b + rotl32 tmp (md5S.getD i 0)) % w32, b, c)

def md5Chunk (st : Nat × Nat × Nat × Nat) (chunk : List Nat) :
    Nat × Nat × Nat × Nat :=
  let M := leWords chunk
  let r := (List.range 64).foldl (md5Round M) st
  ((st.1 + r.1) % w32, (st.2.1 + r.2.1) % w32,
   (st.2.2.1 + r.2.2.1) % w32, (st.2.2.2 + r.2.2.2) % w32)

def word4LE (x : Nat) : List Nat :=
  [x % 256, x / 256 % 256, x / 65536 % 256, x / 16777216 % 256]

/-- The 16 digest bytes. -/
def md5Digest (msg : List Nat) : List Nat :=
  let st := (chunks64 (md5Pad msg)).foldl md5Chunk
    (1732584193, 4023233417, 2562383102, 271733878)
  word4LE st.1 ++ word4LE st.2.1 ++ word4LE st.2.2.1 ++ word4LE st.2.2.2

def byteHex (b : Nat) : List Char := [hexDigChar (b / 16 % 16), hexDigChar (b % 16)]

/-- `hashlib.md5(data).hexdigest()`. -/
def md5Hex (msg : List Nat) : String := ⟨((md5Digest msg).map byteHex).flatten⟩

/-- `payload_checksum(payload)`. -/
def payload_checksum (payload : Json) : String :=
  md5Hex (strUtf8 (dumps payload))

/-! ### Change Detector & Publisher: the tail of `main`, with the webhook
response status and the state file made explicit inputs -/

inductive Effect where
  | logChanged
  | logDryRun (payload : Json)
  | httpPost (url : String) (body : Json)
  | logUploadOk
  | logUploadFailed (status : Nat)
  | logSaved
  | logNoChanges

/-- `upload_calendar_json(payload, webhook_url)` given the POST's response
status: the POST itself always happens; exactly status 200 logs success,
anything else logs an error.  Nothing is returned or raised either way. -/
def upload_calendar_json (payload : Json) (webhook_url : String) (status : Nat) :
    List Effect :=
  Effect.httpPost webhook_url (.obj [("merge_variables", payload)]) ::
    (if status = 200 then [Effect.logUploadOk] else [Effect.logUploadFailed status])

/-- `load_payload()`: the parsed state file, `{}` when the file is absent. -/
def load_payload (disk : Option Json) : Json := disk.getD (.obj [])

/-- The change-detection tail of `main` (lines 195-204): returns the
ordered effect trace and the state file contents after the run
(`save_payload` rewrites the file with the new payload). -/
def main_publish (payload : Json) (webhook_url : String)
    (dry_run force_update : Bool) (status : Nat) (disk : Option Json) :
    List Effect × Option Json :=
  let previous_payload := load_payload disk
  if force_update || !(payload_checksum payload == payload_checksum previous_payload) then
    if dry_run then ([.logChanged, .logDryRun payload], disk)
    else ([.logChanged] ++ upload_calendar_json payload webhook_url status
            ++ [.logSaved], some payload)
  else ([.logNoChanges], disk)

/-! ### The pure per-run pipeline of `main` up to the built payload -/

/-- The two nested `for` loops of `main`: normalize each fetched source in
order, keep the today/tomorrow events of each.  An uncaught normalizer
exception aborts the run. -/
def collectSources (texts : List String) (td tm : Date) :
    Except NormErr (List NEvent) :=
  texts.foldlM (fun acc text => do
    let events ← parse_webcal text
    pure (acc ++ events.filter (keepPred td tm))) []

/-- `main` up to `build_payload`, with the fetched bodies and the run's
today date as inputs (`tomorrow_date = today_date + timedelta(days=1)`). -/
def run_build (texts : List String) (today_date : Date) : Except NormErr Json :=
  let tomorrow_date := dateSucc today_date
  match collectSources texts today_date tomorrow_date with
  | .error e => .error e
  | .ok keep => .ok (build_payload (sortKeep keep) today_date tomorrow_date)

def c9Text : String :=
  "BEGIN:VEVENT\nDTSTART:20260103T123000\nDTEND:20260103T131500\nSUMMARY:Example\nEND:VEVENT"

/-! ### C6 part 1: fingerprint invariance under mapping-key re-ordering -/

mutual
/-- Equality of JSON trees as nested maps/sequences: object field lists may
differ in insertion order (a permutation pairing keys with equivalent
values), everything else must agree. -/
def JsonEquiv : Json → Json → Prop
  | .str a, .str b => a = b
  | .num a, .num b => a = b
  | .arr l1, .arr l2 => JsonListEquiv l1 l2
  | .obj f1, .obj f2 => ∃ mid, JsonFieldsEquiv f1 mid ∧ mid.Perm f2
  | _, _ => False

def JsonListEquiv : List Json → List Json → Prop
  | [], [] => True
  | a :: l1, b :: l2 => JsonEquiv a b ∧ JsonListEquiv l1 l2
  | _, _ => False

def JsonFieldsEquiv : List (String × Json) → List (String × Json) → Prop
  | [], [] => True
  | (k1, v1) :: r1, (k2, v2) :: r2 => k1 = k2 ∧ JsonEquiv v1 v2 ∧ JsonFieldsEquiv r1 r2
  | _, _ => False
end

/-! ### C6 part 2: payloads that differ in an event field or in event order
serialize differently.  `mkPayload` captures the exact dict shape
`build_payload` creates; a decoding function recovers the event triples
from the serialized text, which gives injectivity of the serialization. -/

/-- An EventView as `build_payload` lays it out, from a
(start, end, summary) triple. -/
def evTriple (t : String × String × String) : Json :=
  .obj [("start", .str t.1), ("end", .str t.2.1), ("summary", .str t.2.2)]

/-- The bucket metadata of a payload (dates, years, timezone strings). -/
structure PayloadMeta where
  tDate : String
  tYear : Int
  tTz : String
  tmDate : String
  tmYear : Int
  tmTz : String

def mkBucket (dateStr : String) (year : Int) (tz : String)
    (evs : List (String × String × String)) : Json :=
  .obj [("date", .str dateStr), ("year", .num year), ("timezone", .str tz),
        ("events", .arr (evs.map evTriple))]

/-- A payload of exactly the shape `build_payload` returns. -/
def mkPayload (m : PayloadMeta) (tE tmE : List (String × String × String)) : Json :=
  .obj [("today", mkBucket m.tDate m.tYear m.tTz tE),
        ("tomorrow", mkBucket m.tmDate m.tmYear m.tmTz tmE)]

/-- Two built payloads agreeing on bucket metadata but differing in some
event's start, end or summary, or in the order of events in a bucket. -/
def EventFieldDiff (p q : Json) : Prop :=
  ∃ m tE1 tmE1 tE2 tmE2, p = mkPayload m tE1 tmE1 ∧ q = mkPayload m tE2 tmE2
    ∧ (tE1 ≠ tE2 ∨ tmE1 ≠ tmE2)

/-- The escaped body of a serialized string (between its quotes). -/
def escString (s : String) : List Char := (s.data.map escChar).flatten

def charsTriple (t : String × String × String) : List Char :=
  '\x7b' :: '"' :: 'e' :: 'n' :: 'd' :: '"' :: ':' :: ' ' :: '"' ::
    (escString t.2.1 ++ '"' :: ',' :: ' ' :: '"' :: 's' :: 't' :: 'a' :: 'r' :: 't' :: '"' :: ':' :: ' ' :: '"' ::
      (escString t.1 ++ '"' :: ',' :: ' ' :: '"' :: 's' :: 'u' :: 'm' :: 'm' :: 'a' :: 'r' :: 'y' :: '"' :: ':' :: ' ' :: '"' ::
        (escString t.2.2 ++ '"' :: '\x7d' :: [])))

def hexVal? (c : Char) : Option Nat :=
  if '0' ≤ c ∧ c ≤ '9' then some (c.toNat - 48)
  else if 'a' ≤ c ∧ c ≤ 'f' then some (c.toNat - 87)
  else none

def hex4Val? : List Char → Option (Nat × List Char)
  | h1 :: h2 :: h3 :: h4 :: r =>
    match hexVal? h1, hexVal? h2, hexVal? h3, hexVal? h4 with
    | some x1, some x2, some x3, some x4 => some (x1 * 4096 + x2 * 256 + x3 * 16 + x4, r)
    | _, _, _, _ => none
  | _ => none

def scanUCore (scan : List Char → Option (List Char × List Char)) (v : Nat)
    (r3 : List Char) : Option (List Char × List Char) :=
  if 55296 ≤ v ∧ v < 56320 then
    match r3 with
    | c1 :: c2 :: r4 =>
      if c1 = '\\' ∧ c2 = 'u' then
        match hex4Val? r4 with
        | none => none
        | some wr =>
          if 56320 ≤ wr.1 ∧ wr.1 < 57344 then
            (scan wr.2).map
              (fun p => (Char.ofNat (65536 + (v - 55296) * 1024 + (wr.1 - 56320)) :: p.1, p.2))
          else none
      else none
    | _ => none
  else (scan r3).map (fun p => (Char.ofNat v :: p.1, p.2))

def scanU (scan : List Char → Option (List Char × List Char)) (r2 : List Char) :
    Option (List Char × List Char) :=
  match hex4Val? r2 with
  | none => none
  | some vr => scanUCore scan vr.1 vr.2

def scanStr : Nat → List Char → Option (List Char × List Char)
  | 0, _ => none
  | _ + 1, [] => none
  | fuel + 1, c :: r =>
    if c = '"' then some ([], r)
    else if c = '\\' then
      match r with
      | [] => none
      | e :: r2 =>
        if e = '"' then (scanStr fuel r2).map (fun p => ('"' :: p.1, p.2))
        else if e = '\\' then (scanStr fuel r2).map (fun p => ('\\' :: p.1, p.2))
        else if e = 'n' then (scanStr fuel r2).map (fun p => ('\n' :: p.1, p.2))
        else if e = 'r' then (scanStr fuel r2).map (fun p => ('\r' :: p.1, p.2))
        else if e = 't' then (scanStr fuel r2).map (fun p => ('\t' :: p.1, p.2))
        else if e = 'b' then (scanStr fuel r2).map (fun p => ('\x08' :: p.1, p.2))
        else if e = 'f' then (scanStr fuel r2).map (fun p => ('\x0c' :: p.1, p.2))
        else if e = 'u' then scanU (scanStr fuel) r2
        else none
    else (scanStr fuel r).map (fun p => (c :: p.1, p.2))

/-- Consume an expected literal prefix. -/
def dropLit : List Char → List Char → Option (List Char)
  | [], cs => some cs
  | _ :: _, [] => none
  | l :: ls, c :: cs => if c = l then dropLit ls cs else none

/-- Decode one serialized EventView, returning the (start, end, summary)
triple and the rest. -/
def decTriple (fuel : Nat) (cs : List Char) :
    Option ((String × String × String) × List Char) :=
  (dropLit "\x7b\"end\": \"".data cs).bind fun cs1 =>
  (scanStr fuel cs1).bind fun p1 =>
  (dropLit ", \"start\": \"".data p1.2).bind fun cs3 =>
  (scanStr fuel cs3).bind fun p2 =>
  (dropLit ", \"summary\": \"".data p2.2).bind fun cs5 =>
  (scanStr fuel cs5).bind fun p3 =>
  (dropLit ['\x7d'] p3.2).map fun cs7 =>
  ((⟨p2.1⟩, ⟨p1.1⟩, ⟨p3.1⟩), cs7)

/-- The serialized events of a bucket, joined with `", "`. -/
def charsEvents : List (String × String × String) → List Char
  | [] => []
  | [t] => charsTriple t
  | t :: ts => charsTriple t ++ ',' :: ' ' :: charsEvents ts

def decEventsStep
    (recurse : List Char → Option (List (String × String × String) × List Char))
    (tr : Option ((String × String × String) × List Char)) :
    Option (List (String × String × String) × List Char) :=
  match tr with
  | none => none
  | some (t, rest) =>
    match rest with
    | [] => none
    | d :: rest1 =>
      if d = ']' then some ([t], rest1)
      else if d = ',' then
        match rest1 with
        | [] => none
        | d2 :: rest2 =>
          if d2 = ' ' then
            match recurse rest2 with
            | none => none
            | some (ts, r) => some (t :: ts, r)
          else none
      else none

/-- Decode a `", "`-separated run of serialized EventViews up to the
closing `]` (consumed), returning the triples and the rest. -/
def decEvents (fuel : Nat) : Nat → List Char → Option (List (String × String × String) × List Char)
  | 0, _ => none
  | _ + 1, [] => none
  | n + 1, c :: cs' =>
    if c = ']' then some ([], cs')
    else decEventsStep (decEvents fuel n) (decTriple fuel (c :: cs'))

/-- Serialized bucket characters. -/
def charsBucket (D : String) (Y : Int) (Z : String)
    (evs : List (String × String × String)) : List Char :=
  '\x7b' :: '"' :: 'd' :: 'a' :: 't' :: 'e' :: '"' :: ':' :: ' ' :: '"' ::
    (escString D ++ '"' :: ',' :: ' ' :: '"' :: 'e' :: 'v' :: 'e' :: 'n' :: 't' :: 's' :: '"' :: ':' :: ' ' :: '[' ::
      (charsEvents evs ++ ']' :: ',' :: ' ' :: '"' :: 't' :: 'i' :: 'm' :: 'e' :: 'z' :: 'o' :: 'n' :: 'e' :: '"' :: ':' :: ' ' :: '"' ::
        (escString Z ++ '"' :: ',' :: ' ' :: '"' :: 'y' :: 'e' :: 'a' :: 'r' :: '"' :: ':' :: ' ' ::
          ((toString Y).data ++ '\x7d' :: []))))

/-- Serialized payload characters. -/
def charsPayload (m : PayloadMeta) (tE tmE : List (String × String × String)) : List Char :=
  '\x7b' :: '"' :: 't' :: 'o' :: 'd' :: 'a' :: 'y' :: '"' :: ':' :: ' ' ::
    (charsBucket m.tDate m.tYear m.tTz tE ++ ',' :: ' ' :: '"' :: 't' :: 'o' :: 'm' :: 'o' :: 'r' :: 'r' :: 'o' :: 'w' :: '"' :: ':' :: ' ' ::
      (charsBucket m.tmDate m.tmYear m.tmTz tmE ++ '\x7d' :: []))

/-- An upper bound on component lengths of event triples. -/
def evMaxLen : List (String × String × String) → Nat
  | [] => 0
  | t :: ts => max (max t.1.data.length (max t.2.1.data.length t.2.2.data.length)) (evMaxLen ts)

/-! ### C6 counterexample: MD5 has finitely many digests, payloads do not -/

def bytesToNat : List Nat → Nat
  | [] => 0
  | b :: r => b + 256 * bytesToNat r

/-- The metadata of the pigeonhole payload family. -/
def pigeonMeta : PayloadMeta := ⟨"d", 0, "z", "d2", 0, "z2"⟩

def pigeonTriple (k : Nat) : String × String × String :=
  ("s", "e", String.mk (List.replicate k 'a'))

/-- The payload family: pairwise `EventFieldDiff`, infinitely many. -/
def pigeonPayload (k : Nat) : Json := mkPayload pigeonMeta [pigeonTriple k] []

/-! ## Theorems -/

/-! ### ICS Event Extractor (`parse_events`) -/

theorem parseEventsLine_events (st : ExtState) (l : String) :
    (parseEventsLine st l).events =
      if pyStrip l = "END:VEVENT" then st.events ++ [st.current] else st.events := by
  unfold parseEventsLine
  by_cases h1 : pyStrip l = "BEGIN:VEVENT"
  · have h2 : ¬ pyStrip l = "END:VEVENT" := by
      rw [h1]; decide
    simp [h1, h2]
  · by_cases h2 : pyStrip l = "END:VEVENT"
    · simp [h1, h2]
    · simp only [if_neg h1, if_neg h2]
      by_cases h3 : !st.in_event
      · rw [if_pos h3]
      · rw [if_neg h3]
        rcases splitColon (pyStrip l) with _ | ⟨k, v⟩
        · rfl
        · rfl

theorem foldl_parseEventsLine_length (lines : List String) :
    ∀ st : ExtState,
      ((lines.foldl parseEventsLine st).events).length =
        st.events.length + (lines.map pyStrip).count "END:VEVENT" := by
  induction lines with
  | nil => intro st; simp
  | cons l rest ih =>
    intro st
    rw [List.foldl_cons, ih, List.map_cons, List.count_cons]
    rw [parseEventsLine_events]
    by_cases h : pyStrip l = "END:VEVENT"
    · rw [if_pos h]
      have : (pyStrip l == "END:VEVENT") = true := beq_iff_eq.mpr h
      simp [this, List.length_append]
      omega
    · rw [if_neg h]
      have : (pyStrip l == "END:VEVENT") = false := beq_eq_false_iff_ne.mpr h
      simp [this]

/-- Core behavior of the extractor: for every input (well-formed or not) it
yields exactly one record per line that strips to `END:VEVENT`. -/
theorem parse_events_length (s : String) :
    (parse_events s).length = endLineCount s := by
  unfold parse_events endLineCount
  rw [foldl_parseEventsLine_length]
  simp

/-! ### C5: the extractor is total and tolerates malformed input -/

/-- C5: the Extractor is total: for every input string it returns a flat
sequence of records (one per `END:VEVENT` line; no failure path exists in
the embedding because none exists in the source), and on the malformed
inputs "unmatched END:VEVENT" and "missing BEGIN:VEVENT" the worst outcome
is an empty record in the output. -/
theorem extractor_total_c5 :
    (∀ s : String, (parse_events s).length = endLineCount s)
    ∧ parse_events "END:VEVENT" = [[]]
    ∧ parse_events "SUMMARY:x\nEND:VEVENT" = [[]] := by
  refine ⟨parse_events_length, ?_, ?_⟩ <;> rfl

/-! ### C4: one record per BEGIN/END pair -/

theorem count_end_pairSeq (n : Nat) : (pairSeq n).count "END:VEVENT" = n := by
  induction n with
  | zero => rfl
  | succ n ih =>
    show List.count _ (_ :: _ :: _) = _
    rw [List.count_cons_of_ne (by decide), List.count_cons_self, ih]

theorem endLineCount_eq_markers_count (s : String) :
    endLineCount s = (icsMarkers s).count "END:VEVENT" := by
  unfold endLineCount icsMarkers
  exact (List.count_filter (by decide)).symm

/-- C4: for well-formed ICS text (delimiter lines form `n` properly matched
`BEGIN:VEVENT`/`END:VEVENT` pairs), the Extractor returns exactly one
record per pair, regardless of the lines between them. -/
theorem extractor_pair_count_c4 (s : String) (n : Nat)
    (h : icsMarkers s = pairSeq n) : (parse_events s).length = n := by
  rw [parse_events_length, endLineCount_eq_markers_count, h, count_end_pairSeq]

/-- Witness for C4: a concrete text with two pairs (the second pair empty)
has exactly two records. -/
theorem extractor_pair_count_c4_witness :
    icsMarkers "BEGIN:VEVENT\r\nSUMMARY:a\r\nEND:VEVENT\r\nX\nBEGIN:VEVENT\nEND:VEVENT" = pairSeq 2
    ∧ (parse_events "BEGIN:VEVENT\r\nSUMMARY:a\r\nEND:VEVENT\r\nX\nBEGIN:VEVENT\nEND:VEVENT").length = 2 :=
  ⟨by rfl, extractor_pair_count_c4 _ 2 (by rfl)⟩

/-! ### Timestamp parsing: `parse_dt`, i.e. CPython
`datetime.strptime(val, "%Y%m%dT%H%M%S")` followed by
`.replace(tzinfo=ZoneInfo(DEFAULT_TIMEZONE))`.

CPython's `_strptime` compiles the format to the regex
`(\d\d\d\d)(1[0-2]|0[1-9]|[1-9])(3[01]|[12]\d|0[1-9]|[1-9])T(2[0-3]|[0-1]\d|\d)([0-5]\d|\d)([0-5]\d|\d)`,
matches it with backtracking at the start of the string, raises ValueError
when unconverted data remains, and then builds `datetime(...)`, which
validates the day against the month.  Each field matcher below returns its
candidate `(value, rest)` pairs in the regex's alternation order and the
driver takes the first global match that consumes the whole string. -/

/-- C3 counterexample: a value of the form `YYYYMMDDTHHMMSS` followed by
`Z` is rejected by the timestamp parser (ValueError: unconverted data
remains), not parsed as the fixed local zone. -/
theorem parse_dt_c3_counterexample :
    parse_dt "20260103T123000Z" = none
    ∧ ¬ ∃ dt : DateTime, parse_dt "20260103T123000Z" = some dt := by
  refine ⟨by rfl, ?_⟩
  rintro ⟨dt, h⟩
  rw [show parse_dt "20260103T123000Z" = none from rfl] at h
  exact Option.noConfusion h

/-- C3 (amended): the timestamp parser never consults a `TZID` parameter
(it only ever sees the raw value; every successful parse carries the fixed
configured timezone), and a bare `YYYYMMDDTHHMMSS` value parses to the
fixed zone — but a trailing `Z` makes the parse fail rather than being
ignored. -/
theorem parse_dt_c3 :
    (∀ (v : String) (dt : DateTime), parse_dt v = some dt → dt.tz = DEFAULT_TIMEZONE)
    ∧ parse_dt "20260103T123000" = some ⟨2026, 1, 3, 12, 30, 0, DEFAULT_TIMEZONE⟩
    ∧ parse_dt "20260103T123000Z" = none := by
  refine ⟨?_, by rfl, by rfl⟩
  intro v dt h
  unfold parse_dt at h
  split at h
  · exact Option.noConfusion h
  · split at h
    · cases h; rfl
    · exact Option.noConfusion h

/-- Witness for C3: the fixed-zone property applied at a concrete parse. -/
theorem parse_dt_c3_witness :
    (⟨2026, 1, 3, 12, 30, 0, DEFAULT_TIMEZONE⟩ : DateTime).tz = DEFAULT_TIMEZONE :=
  parse_dt_c3.1 "20260103T123000" _ (by rfl)

/-! ### Event Normalizer: the per-record body of `parse_webcal` -/

/-- Every event the normalizer returns comes from some extracted record
that normalized to exactly that event. -/
theorem normAll_mem (items : List PyDict) (evs : List NEvent)
    (h : normAll items = .ok evs) :
    ∀ ev ∈ evs, ∃ item ∈ items, normRecord item = .ok (some ev) := by
  induction items generalizing evs with
  | nil =>
    cases h
    intro ev hev
    exact absurd hev (List.not_mem_nil ev)
  | cons item rest ih =>
    intro ev hev
    unfold normAll at h
    rcases hr : normRecord item with e | o
    · rw [hr] at h; exact Except.noConfusion h
    · rw [hr] at h
      rcases o with _ | ev0
      · obtain ⟨it, hit, hrec⟩ := ih evs h ev hev
        exact ⟨it, List.mem_cons_of_mem _ hit, hrec⟩
      · rcases hrest : normAll rest with e2 | evs2
        · rw [hrest] at h; exact Except.noConfusion h
        · rw [hrest] at h
          cases h
          rcases List.mem_cons.mp hev with h1 | h2
          · subst h1; exact ⟨item, List.mem_cons_self _ _, hr⟩
          · obtain ⟨it, hit, hrec⟩ := ih evs2 hrest ev h2
            exact ⟨it, List.mem_cons_of_mem _ hit, hrec⟩

theorem normRecord_skip_of_summary (item : PyDict) (sk ek : String)
    (hs : locatedStartKey item = some sk) (he : locatedEndKey item = some ek)
    (hv : (strContains sk "VALUE=DATE" || strContains ek "VALUE=DATE") = true)
    (hsum : (dictGet? item "SUMMARY").isSome = true) :
    normRecord item = .ok none := by
  unfold normRecord
  rw [hs, he]
  dsimp only
  rw [if_pos hv]
  rcases hsm : dictGet? item "SUMMARY" with _ | v
  · rw [hsm] at hsum; exact Bool.noConfusion hsum
  · rfl

theorem normRecord_ok_no_allday (item : PyDict) (ev : NEvent)
    (h : normRecord item = .ok (some ev)) :
    ∀ sk ek, locatedStartKey item = some sk → locatedEndKey item = some ek →
      (strContains sk "VALUE=DATE" || strContains ek "VALUE=DATE") = false := by
  intro sk ek hs he
  unfold normRecord at h
  rw [hs, he] at h
  dsimp only at h
  by_cases hvd : (strContains sk "VALUE=DATE" || strContains ek "VALUE=DATE") = true
  · rw [if_pos hvd] at h
    rcases hsm : dictGet? item "SUMMARY" with _ | v
    · rw [hsm] at h; exact Except.noConfusion h
    · rw [hsm] at h
      cases h
  · exact Bool.eq_false_iff.mpr (fun hc => hvd hc)

/-- C2 counterexample: an all-day record (both located keys contain
`VALUE=DATE`) with no SUMMARY key makes the normalizer raise a `KeyError`
inside the skip-logging call, instead of skipping without raising. -/
theorem normalizer_allday_c2_counterexample :
    normRecord [("DTSTART;VALUE=DATE", "20260103"), ("DTEND;VALUE=DATE", "20260104")]
      = .error .summaryKeyError
    ∧ parse_webcal
        "BEGIN:VEVENT\nDTSTART;VALUE=DATE:20260103\nDTEND;VALUE=DATE:20260104\nEND:VEVENT"
      = .error .summaryKeyError := by
  exact ⟨by rfl, by rfl⟩

/-- C2 (amended): a record whose located start- or end-key contains
`VALUE=DATE` is skipped without raising provided it has a SUMMARY key (the
skip-path logs `item["SUMMARY"]`, so a summary-less all-day record raises
`KeyError` instead); no such record ever yields a NormalizedEvent, and every
event in the Normalizer's output comes from a record whose located keys are
free of `VALUE=DATE`. -/
theorem normalizer_allday_skip_c2 :
    (∀ (item : PyDict) (sk ek : String),
      locatedStartKey item = some sk → locatedEndKey item = some ek →
      (strContains sk "VALUE=DATE" || strContains ek "VALUE=DATE") = true →
      (dictGet? item "SUMMARY").isSome = true →
      normRecord item = .ok none)
    ∧ (∀ (text : String) (evs : List NEvent), parse_webcal text = .ok evs →
        ∀ ev ∈ evs, ∃ item ∈ parse_events text,
          normRecord item = .ok (some ev)
          ∧ ∀ sk ek, locatedStartKey item = some sk → locatedEndKey item = some ek →
              (strContains sk "VALUE=DATE" || strContains ek "VALUE=DATE") = false) := by
  constructor
  · exact normRecord_skip_of_summary
  · intro text evs h ev hev
    obtain ⟨item, hit, hrec⟩ := normAll_mem (parse_events text) evs h ev hev
    exact ⟨item, hit, hrec, normRecord_ok_no_allday item ev hrec⟩

/-- Witness for C2: the amended skip property applied to a concrete all-day
record that has a SUMMARY key, and the provenance property applied to a
concrete one-event text. -/
theorem normalizer_allday_skip_c2_witness :
    normRecord
      [("DTSTART;VALUE=DATE", "20260103"), ("DTEND;VALUE=DATE", "20260104"),
       ("SUMMARY", "holiday")] = .ok none := by
  exact normalizer_allday_skip_c2.1 _ "DTSTART;VALUE=DATE" "DTEND;VALUE=DATE"
    (by rfl) (by rfl) (by rfl) (by rfl)

/-! ### Payload Builder (`build_payload`) -/

theorem buildStep_foldl (keep_events : List NEvent) (td : Date) :
    ∀ acc1 acc2 : List Json,
      keep_events.foldl (buildStep td) (acc1, acc2) =
        (acc1 ++ (keep_events.filter (fun e => e.start.toDate == td)).map eventData,
         acc2 ++ (keep_events.filter (fun e => !(e.start.toDate == td))).map eventData) := by
  induction keep_events with
  | nil => intro acc1 acc2; simp
  | cons e rest ih =>
    intro acc1 acc2
    rw [List.foldl_cons]
    by_cases h : (e.start.toDate == td) = true
    · rw [show buildStep td (acc1, acc2) e = (acc1 ++ [eventData e], acc2) by
        unfold buildStep; rw [if_pos h]]
      rw [ih, List.filter_cons, List.filter_cons, h]
      simp
    · have hb : (e.start.toDate == td) = false := by
        cases hx : (e.start.toDate == td)
        · rfl
        · exact absurd hx h
      rw [show buildStep td (acc1, acc2) e = (acc1, acc2 ++ [eventData e]) by
        unfold buildStep; rw [if_neg (by rw [hb]; exact Bool.noConfusion)]]
      rw [ih, List.filter_cons, List.filter_cons, hb]
      simp

/-- C10: `build_payload` puts each input event in exactly one bucket —
`today` precisely when its start date equals the today reference date,
otherwise `tomorrow` — preserving input order in each bucket, always emits
both buckets with their `date`, `year`, `timezone` and `events` fields
(also on empty input), and the bucket event counts add up to the input
length. -/
theorem build_payload_partition_c10 (keep_events : List NEvent) (td tm : Date) :
    build_payload keep_events td tm =
      .obj [("today", .obj [("date", .str (strftimeADB td)),
                            ("year", .num (td.year : Int)),
                            ("timezone", .str DEFAULT_TIMEZONE),
                            ("events", .arr ((keep_events.filter
                              (fun e => e.start.toDate == td)).map eventData))]),
            ("tomorrow", .obj [("date", .str (strftimeADB tm)),
                               ("year", .num (tm.year : Int)),
                               ("timezone", .str DEFAULT_TIMEZONE),
                               ("events", .arr ((keep_events.filter
                                 (fun e => !(e.start.toDate == td))).map eventData))])]
    ∧ ((keep_events.filter (fun e => e.start.toDate == td)).map eventData).length
        + ((keep_events.filter (fun e => !(e.start.toDate == td))).map eventData).length
      = keep_events.length := by
  constructor
  · unfold build_payload
    rw [buildStep_foldl keep_events td [] []]
    simp
  · rw [List.length_map, List.length_map]
    exact (@List.length_eq_length_filter_add NEvent keep_events
      (fun e => e.start.toDate == td)).symm

/-! ### The run-level filter and stable sort in `main` -/

theorem collectKeep_eq_filter_flatten (evss : List (List NEvent)) (td tm : Date) :
    collectKeep evss td tm = evss.flatten.filter (keepPred td tm) := by
  unfold collectKeep
  suffices h : ∀ acc : List NEvent,
      evss.foldl (fun acc evs => acc ++ evs.filter (keepPred td tm)) acc
      = acc ++ evss.flatten.filter (keepPred td tm) by
    simpa using h []
  induction evss with
  | nil => intro acc; simp
  | cons evs rest ih =>
    intro acc
    rw [List.foldl_cons, ih, List.flatten_cons, List.filter_append, List.append_assoc]

theorem orderedInsert_filter_key (a : NEvent) (k : DTKey) :
    ∀ l : List NEvent,
      (List.orderedInsert sortRel a l).filter (fun e => decide (dtKey e.start = k))
        = if dtKey a.start = k then
            a :: l.filter (fun e => decide (dtKey e.start = k))
          else l.filter (fun e => decide (dtKey e.start = k)) := by
  intro l
  induction l with
  | nil =>
    rw [List.orderedInsert_nil]
    by_cases h : dtKey a.start = k
    · rw [if_pos h]
      simp [h]
    · rw [if_neg h]
      simp [h]
  | cons y ys ih =>
    show (List.orderedInsert sortRel a (y :: ys)).filter _ = _
    rw [List.orderedInsert]
    by_cases hr : sortRel a y
    · rw [if_pos hr]
      by_cases h : dtKey a.start = k
      · rw [if_pos h]; simp [h]
      · rw [if_neg h]; simp [h]
    · rw [if_neg hr]
      -- a is inserted past y, and y's key is strictly below a's
      have hylt : dtKey y.start < dtKey a.start := lt_of_not_le hr
      rw [List.filter_cons, List.filter_cons]
      by_cases h : dtKey a.start = k
      · have hy : dtKey y.start ≠ k := fun hc => absurd (hc ▸ hylt) (h ▸ lt_irrefl _)
        have hyd : decide (dtKey y.start = k) = false := decide_eq_false hy
        rw [hyd, if_pos h, ih, if_pos h]
        simp [hyd]
      · rw [if_neg h, ih, if_neg h]

theorem sortKeep_filter_key (l : List NEvent) (k : DTKey) :
    (sortKeep l).filter (fun e => decide (dtKey e.start = k))
      = l.filter (fun e => decide (dtKey e.start = k)) := by
  unfold sortKeep
  induction l with
  | nil => rfl
  | cons a rest ih =>
    show (List.orderedInsert sortRel a (List.insertionSort sortRel rest)).filter _ = _
    rw [orderedInsert_filter_key, List.filter_cons]
    by_cases h : dtKey a.start = k
    · rw [if_pos h, ih, decide_eq_true h]
      rfl
    · rw [if_neg h, ih, decide_eq_false h]
      simp

/-- C7: the list handed to the Payload Builder consists of exactly the
normalized events whose start date is the run's today or tomorrow reference
date (as a permutation of the filtered concatenation of the sources),
sorted ascending by start timestamp, and stably so: events with any given
start timestamp appear in calendar-source-enumeration order and then
original event order (their relative order in the filtered input). -/
theorem main_filter_sort_c7 (evss : List (List NEvent)) (td tm : Date) :
    (mainKeepSorted evss td tm).Perm (evss.flatten.filter (keepPred td tm))
    ∧ (mainKeepSorted evss td tm).Sorted sortRel
    ∧ ∀ k : DTKey,
        (mainKeepSorted evss td tm).filter (fun e => decide (dtKey e.start = k))
          = (evss.flatten.filter (keepPred td tm)).filter
              (fun e => decide (dtKey e.start = k)) := by
  refine ⟨?_, ?_, ?_⟩
  · rw [mainKeepSorted, collectKeep_eq_filter_flatten]
    exact List.perm_insertionSort sortRel _
  · exact List.sorted_insertionSort sortRel _
  · intro k
    rw [mainKeepSorted, collectKeep_eq_filter_flatten, sortKeep_filter_key]

/-! ### Change Detector & Publisher: the tail of `main`, with the webhook
response status and the state file made explicit inputs -/

/-- C8: with force set and dry-run unset, the publish POST is attempted no
matter how the fingerprints compare — the trace is the same for every
state-file content, including one already equal to the new payload; with
force and dry-run both set nothing is posted or persisted, the would-be
payload is only logged. -/
theorem force_flag_c8 (payload : Json) (url : String) (status : Nat)
    (disk : Option Json) :
    (main_publish payload url false true status disk).1
        = [.logChanged] ++ upload_calendar_json payload url status ++ [.logSaved]
    ∧ Effect.httpPost url (.obj [("merge_variables", payload)])
        ∈ (main_publish payload url false true status disk).1
    ∧ main_publish payload url true true status disk
        = ([.logChanged, .logDryRun payload], disk)
    ∧ (∀ u b, Effect.httpPost u b ∉ (main_publish payload url true true status disk).1) := by
  refine ⟨rfl, ?_, rfl, ?_⟩
  · show Effect.httpPost url (.obj [("merge_variables", payload)])
      ∈ [Effect.logChanged] ++ upload_calendar_json payload url status ++ [Effect.logSaved]
    unfold upload_calendar_json
    exact List.mem_append.mpr (Or.inl (List.mem_cons_of_mem _ (List.mem_cons_self _ _)))
  · intro u b h
    have h2 : Effect.httpPost u b ∈ [Effect.logChanged, Effect.logDryRun payload] := h
    rcases List.mem_cons.mp h2 with h1 | h3
    · exact Effect.noConfusion h1
    · rcases List.mem_cons.mp h3 with h4 | h5
      · exact Effect.noConfusion h4
      · exact absurd h5 (List.not_mem_nil _)

/-- C1 counterexample: a run that considers the payload changed, with
dry-run unset and a failing publish (status 500), still overwrites the
state file with the new payload — the previously persisted state does not
remain on disk, so the next run does not detect the change again. -/
theorem publish_persist_c1_counterexample :
    (main_publish (.str "new") "http://hook" false true 500 (some (.str "old"))).2
        = some (.str "new")
    ∧ (some (Json.str "new") : Option Json) ≠ some (.str "old")
    ∧ Effect.logUploadFailed 500
        ∈ (main_publish (.str "new") "http://hook" false true 500 (some (.str "old"))).1 := by
  refine ⟨rfl, ?_, ?_⟩
  · intro h
    injection h with h1
    injection h1 with h2
    exact absurd h2 (by decide)
  · rw [show (main_publish (.str "new") "http://hook" false true 500 (some (.str "old"))).1
        = [.logChanged, .httpPost "http://hook" (.obj [("merge_variables", .str "new")]),
           .logUploadFailed 500, .logSaved] from rfl]
    exact List.mem_cons_of_mem _ (List.mem_cons_of_mem _ (List.mem_cons_self _ _))

/-- C1 (amended): when the run considers the payload changed (force set or
fingerprints differing) and dry-run is unset, the publish POST is attempted
before persistence — but the new payload is then persisted unconditionally,
also when the response status is not 200 (the status only selects the
success or error log line); after a failed publish the state file already
holds the new payload, so the next run does not re-detect the change. -/
theorem publish_then_persist_c1 (payload : Json) (url : String)
    (force : Bool) (status : Nat) (disk : Option Json)
    (hchanged : (force
      || !(payload_checksum payload == payload_checksum (load_payload disk))) = true) :
    (main_publish payload url false force status disk).1
        = [.logChanged, .httpPost url (.obj [("merge_variables", payload)])]
          ++ (if status = 200 then [Effect.logUploadOk] else [Effect.logUploadFailed status])
          ++ [.logSaved]
    ∧ (main_publish payload url false force status disk).2 = some payload := by
  unfold main_publish
  rw [if_pos hchanged]
  constructor
  · show [Effect.logChanged] ++ upload_calendar_json payload url status ++ [Effect.logSaved] = _
    unfold upload_calendar_json
    simp
  · rfl

/-- Witness for C1: concrete forced run with a failing POST (status 500):
the POST is attempted, and the state file ends up holding the new payload. -/
theorem publish_then_persist_c1_witness :
    (main_publish (.str "p") "http://hook" false true 500 none).1
        = [.logChanged, .httpPost "http://hook" (.obj [("merge_variables", .str "p")]),
           .logUploadFailed 500, .logSaved]
    ∧ (main_publish (.str "p") "http://hook" false true 500 none).2 = some (.str "p") := by
  have h := publish_then_persist_c1 (.str "p") "http://hook" true 500 none (by rfl)
  refine ⟨?_, h.2⟩
  rw [h.1]
  rfl

/-! ### The pure per-run pipeline of `main` up to the built payload -/

/-- C9: the single-event example ICS, on a run whose today is 2026-01-03,
builds a payload whose today bucket holds exactly
`{"start": "12:30 PM", "end": "1:15 PM", "summary": "Example"}` and whose
tomorrow bucket is empty. -/
theorem example_payload_c9 :
    ((run_build [c9Text] ⟨2026, 1, 3⟩).toOption.bind (fun p => jsonGet? p "today")).bind
        (fun b => jsonGet? b "events")
      = some (.arr [.obj [("start", .str "12:30 PM"), ("end", .str "1:15 PM"),
                          ("summary", .str "Example")]])
    ∧ ((run_build [c9Text] ⟨2026, 1, 3⟩).toOption.bind (fun p => jsonGet? p "tomorrow")).bind
        (fun b => jsonGet? b "events")
      = some (.arr []) := by
  exact ⟨by rfl, by rfl⟩

/-! ### C6 part 1: fingerprint invariance under mapping-key re-ordering -/

theorem dumpsFields_eq_map (fs : List (String × Json)) :
    dumpsFields fs = fs.map (fun kv => (kv.1, dumps kv.2)) := by
  induction fs with
  | nil => rfl
  | cons kv rest ih => cases kv; simp [dumpsFields, ih]

/-- Sorting by an antisymmetric total preorder maps permuted lists to the
same sorted list. -/
theorem sortPairs_perm_eq {l1 l2 : List (String × String)} (h : l1.Perm l2) :
    sortPairs l1 = sortPairs l2 :=
  List.eq_of_perm_of_sorted
    ((List.perm_insertionSort pairLE l1).trans
      (h.trans (List.perm_insertionSort pairLE l2).symm))
    (List.sorted_insertionSort pairLE l1) (List.sorted_insertionSort pairLE l2)

theorem dumps_equiv_sized :
    ∀ n : Nat,
      (∀ j1 j2 : Json, sizeOf j1 ≤ n → JsonEquiv j1 j2 → dumps j1 = dumps j2)
      ∧ (∀ l1 l2 : List Json, sizeOf l1 ≤ n → JsonListEquiv l1 l2 →
          dumpsList l1 = dumpsList l2)
      ∧ (∀ f1 f2 : List (String × Json), sizeOf f1 ≤ n → JsonFieldsEquiv f1 f2 →
          dumpsFields f1 = dumpsFields f2) := by
  intro n
  induction n with
  | zero =>
    refine ⟨?_, ?_, ?_⟩
    · intro j1 j2 hs he
      exfalso; cases j1 <;> simp at hs
    · intro l1 l2 hs he
      exfalso; cases l1 <;> simp at hs
    · intro f1 f2 hs he
      exfalso; cases f1 <;> simp at hs
  | succ n ih =>
    refine ⟨?_, ?_, ?_⟩
    · intro j1 j2 hs he
      cases j1 with
      | str a =>
        cases j2 <;> simp only [JsonEquiv] at he
        rw [he]
      | num a =>
        cases j2 <;> simp only [JsonEquiv] at he
        rw [he]
      | arr l1 =>
        cases j2 <;> simp only [JsonEquiv] at he
        case arr l2 =>
          have hl : sizeOf l1 ≤ n := by
            have hspec := Json.arr.sizeOf_spec l1
            omega
          show dumps (.arr l1) = dumps (.arr l2)
          simp only [dumps]
          rw [ih.2.1 l1 l2 hl he]
      | obj f1 =>
        cases j2 <;> simp only [JsonEquiv] at he
        case obj f2 =>
          obtain ⟨mid, hfe, hperm⟩ := he
          have hf : sizeOf f1 ≤ n := by
            have hspec := Json.obj.sizeOf_spec f1
            omega
          have h1 : dumpsFields f1 = dumpsFields mid := ih.2.2 f1 mid hf hfe
          have h2 : (dumpsFields mid).Perm (dumpsFields f2) := by
            rw [dumpsFields_eq_map, dumpsFields_eq_map]
            exact hperm.map _
          show dumps (.obj f1) = dumps (.obj f2)
          simp only [dumps]
          rw [h1, sortPairs_perm_eq h2]
    · intro l1 l2 hs he
      cases l1 with
      | nil =>
        cases l2 <;> simp only [JsonListEquiv] at he
        rfl
      | cons a r1 =>
        cases l2 <;> simp only [JsonListEquiv] at he
        case cons b r2 =>
          obtain ⟨hj, hrest⟩ := he
          have ha : sizeOf a ≤ n := by
            have hspec := List.cons.sizeOf_spec a r1
            omega
          have hr : sizeOf r1 ≤ n := by
            have hspec := List.cons.sizeOf_spec a r1
            have hsa : 0 < sizeOf a := by cases a <;> simp
            omega
          simp only [dumpsList]
          rw [ih.1 a b ha hj, ih.2.1 r1 r2 hr hrest]
    · intro f1 f2 hs he
      cases f1 with
      | nil =>
        cases f2 <;> simp only [JsonFieldsEquiv] at he
        rfl
      | cons kv r1 =>
        obtain ⟨k1, v1⟩ := kv
        cases f2 <;> simp only [JsonFieldsEquiv] at he
        case cons kv2 r2 =>
          obtain ⟨k2, v2⟩ := kv2
          simp only [JsonFieldsEquiv] at he
          obtain ⟨hk, hv, hrest⟩ := he
          have hv1 : sizeOf v1 ≤ n := by
            have hspec := List.cons.sizeOf_spec (k1, v1) r1
            have hspec2 := Prod.mk.sizeOf_spec k1 v1
            omega
          have hr : sizeOf r1 ≤ n := by
            have hspec := List.cons.sizeOf_spec (k1, v1) r1
            have hspec2 := Prod.mk.sizeOf_spec k1 v1
            have hsv : 0 < sizeOf v1 := by cases v1 <;> simp
            omega
          simp only [dumpsFields]
          rw [hk, ih.1 v1 v2 hv1 hv, ih.2.2 r1 r2 hr hrest]

/-- Checksums only depend on the serialized form. -/
theorem payload_checksum_equiv (p q : Json) (h : JsonEquiv p q) :
    payload_checksum p = payload_checksum q := by
  unfold payload_checksum
  rw [(dumps_equiv_sized (sizeOf p)).1 p q (le_refl _) h]

/-! ### C6 part 2: payloads that differ in an event field or in event order
serialize differently.  `mkPayload` captures the exact dict shape
`build_payload` creates; a decoding function recovers the event triples
from the serialized text, which gives injectivity of the serialization. -/

theorem encStr_data (s : String) : (encStr s).data = '"' :: escString s ++ ['"'] := rfl

theorem dumps_str (s : String) : dumps (.str s) = encStr s := by simp [dumps]

theorem dumps_num (n : Int) : dumps (.num n) = toString n := by simp [dumps]

theorem dumpsList_eq_map (l : List Json) : dumpsList l = l.map dumps := by
  induction l with
  | nil => rfl
  | cons a r ih => simp [dumpsList, ih]

theorem sortPairs_triple (S E U : String) :
    sortPairs [("start", S), ("end", E), ("summary", U)]
      = [("end", E), ("start", S), ("summary", U)] := by
  have h1 : pairLE ("end", E) ("summary", U) :=
    Or.inl (show ("end" : String).data < "summary".data by decide)
  have h2 : ¬ pairLE ("start", S) ("end", E) := by
    intro h
    unfold pairLE at h
    rcases h with h | ⟨h, _⟩
    · exact absurd h (show ¬ ("start" : String).data < "end".data by decide)
    · exact absurd h (show ¬ ("start" : String) = "end" by decide)
  have h3 : pairLE ("start", S) ("summary", U) :=
    Or.inl (show ("start" : String).data < "summary".data by decide)
  unfold sortPairs
  simp only [List.insertionSort, List.orderedInsert_nil, List.orderedInsert,
    h1, h2, h3, if_true, if_false]

theorem sortPairs_bucket (D Y Z Ev : String) :
    sortPairs [("date", D), ("year", Y), ("timezone", Z), ("events", Ev)]
      = [("date", D), ("events", Ev), ("timezone", Z), ("year", Y)] := by
  have h1 : ¬ pairLE ("timezone", Z) ("events", Ev) := by
    intro h
    unfold pairLE at h
    rcases h with h | ⟨h, _⟩
    · exact absurd h (show ¬ ("timezone" : String).data < "events".data by decide)
    · exact absurd h (show ¬ ("timezone" : String) = "events" by decide)
  have h3 : ¬ pairLE ("year", Y) ("events", Ev) := by
    intro h
    unfold pairLE at h
    rcases h with h | ⟨h, _⟩
    · exact absurd h (show ¬ ("year" : String).data < "events".data by decide)
    · exact absurd h (show ¬ ("year" : String) = "events" by decide)
  have h4 : ¬ pairLE ("year", Y) ("timezone", Z) := by
    intro h
    unfold pairLE at h
    rcases h with h | ⟨h, _⟩
    · exact absurd h (show ¬ ("year" : String).data < "timezone".data by decide)
    · exact absurd h (show ¬ ("year" : String) = "timezone" by decide)
  have h5 : pairLE ("date", D) ("events", Ev) :=
    Or.inl (show ("date" : String).data < "events".data by decide)
  unfold sortPairs
  simp only [List.insertionSort, List.orderedInsert_nil, List.orderedInsert,
    h1, h3, h4, h5, if_true, if_false]

theorem sortPairs_payload (A B : String) :
    sortPairs [("today", A), ("tomorrow", B)]
      = [("today", A), ("tomorrow", B)] := by
  have h1 : pairLE ("today", A) ("tomorrow", B) :=
    Or.inl (show ("today" : String).data < "tomorrow".data by decide)
  unfold sortPairs
  simp only [List.insertionSort, List.orderedInsert_nil, List.orderedInsert,
    h1, if_true, if_false]

theorem dumps_evTriple_data (t : String × String × String) :
    (dumps (evTriple t)).data = charsTriple t := by
  have h : dumps (evTriple t)
      = "\x7b" ++ ((encStr "end" ++ ": " ++ encStr t.2.1) ++ ", "
        ++ ((encStr "start" ++ ": " ++ encStr t.1) ++ ", "
          ++ (encStr "summary" ++ ": " ++ encStr t.2.2))) ++ "\x7d" := by
    show dumps (.obj [("start", .str t.1), ("end", .str t.2.1), ("summary", .str t.2.2)]) = _
    simp only [dumps, dumpsFields, dumps_str, sortPairs_triple, List.map, joinSep]
  rw [h]
  have e1 : escString "end" = ['e', 'n', 'd'] := rfl
  have e2 : escString "start" = ['s', 't', 'a', 'r', 't'] := rfl
  have e3 : escString "summary" = ['s', 'u', 'm', 'm', 'a', 'r', 'y'] := rfl
  have d1 : ("\x7b" : String).data = ['\x7b'] := rfl
  have d2 : (": " : String).data = [':', ' '] := rfl
  have d3 : (", " : String).data = [',', ' '] := rfl
  have d4 : ("\x7d" : String).data = ['\x7d'] := rfl
  simp only [String.data_append, encStr_data, e1, e2, e3, d1, d2, d3, d4, charsTriple,
    List.cons_append, List.nil_append, List.append_assoc]

theorem hexVal_hexDigChar (k : Nat) (h : k < 16) : hexVal? (hexDigChar k) = some k := by
  interval_cases k <;> rfl

theorem hex4Val_hex4 (v : Nat) (hv : v < 65536) (r : List Char) :
    hex4Val? (hex4 v ++ r) = some (v, r) := by
  have h1 := hexVal_hexDigChar (v / 4096 % 16) (by omega)
  have h2 := hexVal_hexDigChar (v / 256 % 16) (by omega)
  have h3 := hexVal_hexDigChar (v / 16 % 16) (by omega)
  have h4 := hexVal_hexDigChar (v % 16) (by omega)
  show hex4Val? (hexDigChar (v / 4096 % 16) :: hexDigChar (v / 256 % 16)
    :: hexDigChar (v / 16 % 16) :: hexDigChar (v % 16) :: r) = some (v, r)
  simp only [hex4Val?, h1, h2, h3, h4]
  have : v / 4096 % 16 * 4096 + v / 256 % 16 * 256 + v / 16 % 16 * 16 + v % 16 = v := by
    omega
  rw [this]

theorem scanU_eq (scan : List Char → Option (List Char × List Char)) (v : Nat)
    (hv : v < 65536) (r3 : List Char) :
    scanU scan (hex4 v ++ r3) = scanUCore scan v r3 := by
  unfold scanU
  rw [hex4Val_hex4 v hv r3]

theorem scanUCore_bmp (scan : List Char → Option (List Char × List Char)) (v : Nat)
    (hv : ¬ (55296 ≤ v ∧ v < 56320)) (r3 : List Char) :
    scanUCore scan v r3 = (scan r3).map (fun p => (Char.ofNat v :: p.1, p.2)) := by
  unfold scanUCore
  rw [if_neg hv]

theorem scanUCore_pair (scan : List Char → Option (List Char × List Char)) (v w : Nat)
    (hv : 55296 ≤ v ∧ v < 56320) (hw : w < 65536) (hw2 : 56320 ≤ w ∧ w < 57344)
    (r : List Char) :
    scanUCore scan v ('\\' :: 'u' :: (hex4 w ++ r)) =
      (scan r).map
        (fun p => (Char.ofNat (65536 + (v - 55296) * 1024 + (w - 56320)) :: p.1, p.2)) := by
  unfold scanUCore
  rw [if_pos hv]
  show (if ('\\' : Char) = '\\' ∧ ('u' : Char) = 'u' then _ else none) = _
  rw [if_pos ⟨rfl, rfl⟩]
  rw [hex4Val_hex4 w hw r]
  show (if 56320 ≤ w ∧ w < 57344 then _ else none) = _
  rw [if_pos hw2]

/-- Decoding inverts escaping: one escaped character at the head. -/
theorem scanStr_escChar (c : Char) (f : Nat) (rest s' r : List Char)
    (stepih : scanStr f rest = some (s', r)) :
    scanStr (f + 1) (escChar c ++ rest) = some (c :: s', r) := by
  have hvalid : Nat.isValidChar c.toNat := c.valid
  by_cases h1 : c = '"'
  · subst h1
    show scanStr (f + 1) ('\\' :: '"' :: rest) = _
    simp [scanStr, stepih]
  by_cases h2 : c = '\\'
  · subst h2
    show scanStr (f + 1) ('\\' :: '\\' :: rest) = _
    simp [scanStr, stepih]
  by_cases h3 : c = '\n'
  · subst h3
    show scanStr (f + 1) ('\\' :: 'n' :: rest) = _
    simp [scanStr, stepih]
  by_cases h4 : c = '\r'
  · subst h4
    show scanStr (f + 1) ('\\' :: 'r' :: rest) = _
    simp [scanStr, stepih]
  by_cases h5 : c = '\t'
  · subst h5
    show scanStr (f + 1) ('\\' :: 't' :: rest) = _
    simp [scanStr, stepih]
  by_cases h6 : c.toNat = 8
  · have hc : c = '\x08' := by
      rw [← Char.ofNat_toNat c, h6]
    subst hc
    show scanStr (f + 1) ('\\' :: 'b' :: rest) = _
    simp [scanStr, stepih]
  by_cases h7 : c.toNat = 12
  · have hc : c = '\x0c' := by
      rw [← Char.ofNat_toNat c, h7]
    subst hc
    show scanStr (f + 1) ('\\' :: 'f' :: rest) = _
    simp [scanStr, stepih]
  by_cases h8 : c.toNat < 32
  · have hesc : escChar c = '\\' :: 'u' :: hex4 c.toNat := by
      unfold escChar
      rw [if_neg h1, if_neg h2, if_neg h3, if_neg h4, if_neg h5, if_neg h6,
        if_neg h7, if_pos h8]
    rw [hesc]
    rw [show scanStr (f + 1) (('\\' :: 'u' :: hex4 c.toNat) ++ rest)
        = scanU (scanStr f) (hex4 c.toNat ++ rest) from by simp [scanStr]]
    rw [scanU_eq (scanStr f) c.toNat (by omega) rest]
    rw [scanUCore_bmp (scanStr f) c.toNat (by omega) rest]
    rw [stepih]
    simp [Char.ofNat_toNat]
  by_cases h9 : c.toNat < 127
  · have hesc : escChar c = [c] := by
      unfold escChar
      rw [if_neg h1, if_neg h2, if_neg h3, if_neg h4, if_neg h5, if_neg h6,
        if_neg h7, if_neg h8, if_pos h9]
    rw [hesc]
    show scanStr (f + 1) (c :: rest) = _
    simp only [scanStr, if_neg h1, if_neg h2]
    rw [stepih]
    rfl
  by_cases h10 : c.toNat < 65536
  · have hesc : escChar c = '\\' :: 'u' :: hex4 c.toNat := by
      unfold escChar
      rw [if_neg h1, if_neg h2, if_neg h3, if_neg h4, if_neg h5, if_neg h6,
        if_neg h7, if_neg h8, if_neg h9, if_pos h10]
    rw [hesc]
    rw [show scanStr (f + 1) (('\\' :: 'u' :: hex4 c.toNat) ++ rest)
        = scanU (scanStr f) (hex4 c.toNat ++ rest) from by simp [scanStr]]
    rw [scanU_eq (scanStr f) c.toNat (by omega) rest]
    rw [scanUCore_bmp (scanStr f) c.toNat
      (by rcases hvalid with hv | ⟨hv1, hv2⟩ <;> omega) rest]
    rw [stepih]
    simp [Char.ofNat_toNat]
  · have hlt : c.toNat < 1114112 := by
      rcases hvalid with hv | ⟨_, hv2⟩
      · omega
      · exact hv2
    have hesc : escChar c = ('\\' :: 'u' :: hex4 (55296 + (c.toNat - 65536) / 1024))
        ++ ('\\' :: 'u' :: hex4 (56320 + (c.toNat - 65536) % 1024)) := by
      unfold escChar
      rw [if_neg h1, if_neg h2, if_neg h3, if_neg h4, if_neg h5, if_neg h6,
        if_neg h7, if_neg h8, if_neg h9, if_neg h10]
    rw [hesc]
    rw [show scanStr (f + 1) ((('\\' :: 'u' :: hex4 (55296 + (c.toNat - 65536) / 1024))
          ++ ('\\' :: 'u' :: hex4 (56320 + (c.toNat - 65536) % 1024))) ++ rest)
        = scanU (scanStr f) (hex4 (55296 + (c.toNat - 65536) / 1024)
            ++ ('\\' :: 'u' :: (hex4 (56320 + (c.toNat - 65536) % 1024) ++ rest)))
        from by simp [scanStr]]
    rw [scanU_eq (scanStr f) (55296 + (c.toNat - 65536) / 1024) (by omega)]
    rw [scanUCore_pair (scanStr f) (55296 + (c.toNat - 65536) / 1024)
      (56320 + (c.toNat - 65536) % 1024) (by constructor <;> omega) (by omega)
      (by constructor <;> omega) rest]
    rw [stepih]
    have harith : 65536 + (55296 + (c.toNat - 65536) / 1024 - 55296) * 1024
        + (56320 + (c.toNat - 65536) % 1024 - 56320) = c.toNat := by
      omega
    rw [harith, Char.ofNat_toNat]
    rfl

/-- Decoding inverts escaping of a whole string body. -/
theorem scanStr_flat (s : List Char) : ∀ (r : List Char) (fuel : Nat), s.length < fuel →
    scanStr fuel ((s.map escChar).flatten ++ '"' :: r) = some (s, r) := by
  induction s with
  | nil =>
    intro r fuel hf
    cases fuel with
    | zero => exact absurd hf (by omega)
    | succ f =>
      show scanStr (f + 1) ('"' :: r) = _
      simp [scanStr]
  | cons c s' ih =>
    intro r fuel hf
    cases fuel with
    | zero => exact absurd hf (by omega)
    | succ f =>
      have hf' : s'.length < f := by
        simp only [List.length_cons] at hf
        omega
      show scanStr (f + 1) ((escChar c ++ (s'.map escChar).flatten) ++ '"' :: r) = _
      rw [List.append_assoc]
      exact scanStr_escChar c f _ s' r (ih r f hf')

theorem scanStr_escString (s : String) (y : List Char) (fuel : Nat)
    (hf : s.data.length < fuel) :
    scanStr fuel (escString s ++ '"' :: y) = some (s.data, y) :=
  scanStr_flat s.data y fuel hf

theorem dropLit_append (lit : List Char) : ∀ r : List Char, dropLit lit (lit ++ r) = some r := by
  induction lit with
  | nil => intro r; rfl
  | cons l ls ih =>
    intro r
    show dropLit (l :: ls) (l :: (ls ++ r)) = some r
    simp [dropLit, ih]

theorem decTriple_round (t : String × String × String) (r : List Char) (fuel : Nat)
    (hf1 : t.1.data.length < fuel) (hf2 : t.2.1.data.length < fuel)
    (hf3 : t.2.2.data.length < fuel) :
    decTriple fuel (charsTriple t ++ r) = some (t, r) := by
  have hX : charsTriple t ++ r
      = "\x7b\"end\": \"".data ++ (escString t.2.1 ++ '"' :: (", \"start\": \"".data
        ++ (escString t.1 ++ '"' :: (", \"summary\": \"".data
          ++ (escString t.2.2 ++ '"' :: '\x7d' :: r))))) := by
    simp [charsTriple]
  have hs1 : ∀ y, scanStr fuel (escString t.2.1 ++ '"' :: y) = some (t.2.1.data, y) :=
    fun y => scanStr_escString t.2.1 y fuel hf2
  have hs2 : ∀ y, scanStr fuel (escString t.1 ++ '"' :: y) = some (t.1.data, y) :=
    fun y => scanStr_escString t.1 y fuel hf1
  have hs3 : ∀ y, scanStr fuel (escString t.2.2 ++ '"' :: y) = some (t.2.2.data, y) :=
    fun y => scanStr_escString t.2.2 y fuel hf3
  have hd : ∀ y : List Char, dropLit ['\x7d'] ('\x7d' :: y) = some y :=
    fun y => dropLit_append ['\x7d'] y
  rw [hX]
  simp only [decTriple, dropLit_append, hs1, hs2, hs3, hd, Option.bind, Option.map]

theorem decEvents_ne (fuel m : Nat) (c : Char) (cs' : List Char) (hc : ¬ c = ']') :
    decEvents fuel (m + 1) (c :: cs')
      = decEventsStep (decEvents fuel m) (decTriple fuel (c :: cs')) := by
  simp [decEvents, hc]

theorem decEventsStep_last (recurse : List Char → Option (List (String × String × String) × List Char))
    (t : String × String × String) (y : List Char) :
    decEventsStep recurse (some (t, ']' :: y)) = some ([t], y) := by
  simp [decEventsStep]

theorem decEventsStep_cons (recurse : List Char → Option (List (String × String × String) × List Char))
    (t : String × String × String) (X : List Char)
    (ts : List (String × String × String)) (r : List Char)
    (hrec : recurse X = some (ts, r)) :
    decEventsStep recurse (some (t, ',' :: ' ' :: X)) = some (t :: ts, r) := by
  simp [decEventsStep, hrec]

theorem decEvents_round (evs : List (String × String × String)) :
    ∀ (r : List Char) (n fuel : Nat), evs.length < n →
    (∀ t ∈ evs, t.1.data.length < fuel ∧ t.2.1.data.length < fuel
      ∧ t.2.2.data.length < fuel) →
    decEvents fuel n (charsEvents evs ++ ']' :: r) = some (evs, r) := by
  induction evs with
  | nil =>
    intro r n fuel hn hf
    cases n with
    | zero => omega
    | succ m =>
      show decEvents fuel (m + 1) (']' :: r) = _
      simp [decEvents]
  | cons t ts ih =>
    intro r n fuel hn hf
    cases n with
    | zero => omega
    | succ m =>
      have hm : ts.length < m := by
        simp only [List.length_cons] at hn
        omega
      have hft := hf t (List.mem_cons_self _ _)
      have hfts : ∀ u ∈ ts, u.1.data.length < fuel ∧ u.2.1.data.length < fuel
          ∧ u.2.2.data.length < fuel :=
        fun u hu => hf u (List.mem_cons_of_mem _ hu)
      cases ts with
      | nil =>
        show decEvents fuel (m + 1) (charsTriple t ++ ']' :: r) = some ([t], r)
        obtain ⟨tl, htl⟩ : ∃ tl, charsTriple t ++ ']' :: r = '\x7b' :: tl := ⟨_, rfl⟩
        rw [htl, decEvents_ne fuel m '\x7b' tl (by decide), ← htl]
        rw [decTriple_round t (']' :: r) fuel hft.1 hft.2.1 hft.2.2]
        exact decEventsStep_last _ t r
      | cons t2 ts2 =>
        show decEvents fuel (m + 1)
          ((charsTriple t ++ ',' :: ' ' :: charsEvents (t2 :: ts2)) ++ ']' :: r)
          = some (t :: t2 :: ts2, r)
        rw [List.append_assoc]
        obtain ⟨tl, htl⟩ : ∃ tl,
            charsTriple t ++ (',' :: ' ' :: charsEvents (t2 :: ts2) ++ ']' :: r)
              = '\x7b' :: tl := ⟨_, rfl⟩
        rw [htl, decEvents_ne fuel m '\x7b' tl (by decide), ← htl]
        rw [show (',' :: ' ' :: charsEvents (t2 :: ts2) ++ ']' :: r)
            = ',' :: ' ' :: (charsEvents (t2 :: ts2) ++ ']' :: r) from rfl]
        rw [decTriple_round t _ fuel hft.1 hft.2.1 hft.2.2]
        exact decEventsStep_cons _ t _ _ r (ih r m fuel hm hfts)

theorem dumps_arr (l : List Json) :
    dumps (.arr l) = "[" ++ joinSep ", " (dumpsList l) ++ "]" := by
  simp [dumps]

theorem joinSep_events_data (evs : List (String × String × String)) :
    (joinSep ", " ((evs.map evTriple).map dumps)).data = charsEvents evs := by
  induction evs with
  | nil => rfl
  | cons t ts ih =>
    cases ts with
    | nil => exact dumps_evTriple_data t
    | cons t2 ts2 =>
      show (dumps (evTriple t) ++ ", "
        ++ joinSep ", " (((t2 :: ts2).map evTriple).map dumps)).data
        = charsTriple t ++ ',' :: ' ' :: charsEvents (t2 :: ts2)
      have hc : (", " : String).data = [',', ' '] := rfl
      rw [String.data_append, String.data_append, dumps_evTriple_data t, hc, ih]
      simp only [List.append_assoc, List.cons_append, List.nil_append]

theorem dumps_mkBucket_data (D : String) (Y : Int) (Z : String)
    (evs : List (String × String × String)) :
    (dumps (mkBucket D Y Z evs)).data = charsBucket D Y Z evs := by
  have h : dumps (mkBucket D Y Z evs)
      = "\x7b" ++ ((encStr "date" ++ ": " ++ encStr D) ++ ", "
        ++ ((encStr "events" ++ ": "
            ++ ("[" ++ joinSep ", " ((evs.map evTriple).map dumps) ++ "]")) ++ ", "
          ++ ((encStr "timezone" ++ ": " ++ encStr Z) ++ ", "
            ++ (encStr "year" ++ ": " ++ toString Y)))) ++ "\x7d" := by
    show dumps (.obj [("date", .str D), ("year", .num Y), ("timezone", .str Z),
      ("events", .arr (evs.map evTriple))]) = _
    simp only [dumps, dumpsFields, dumps_str, dumps_num, dumps_arr, dumpsList_eq_map,
      sortPairs_bucket, List.map, joinSep]
  rw [h]
  have e1 : escString "date" = ['d', 'a', 't', 'e'] := rfl
  have e2 : escString "events" = ['e', 'v', 'e', 'n', 't', 's'] := rfl
  have e3 : escString "timezone" = ['t', 'i', 'm', 'e', 'z', 'o', 'n', 'e'] := rfl
  have e4 : escString "year" = ['y', 'e', 'a', 'r'] := rfl
  have d1 : ("\x7b" : String).data = ['\x7b'] := rfl
  have d2 : (": " : String).data = [':', ' '] := rfl
  have d3 : (", " : String).data = [',', ' '] := rfl
  have d4 : ("\x7d" : String).data = ['\x7d'] := rfl
  have d5 : ("[" : String).data = ['['] := rfl
  have d6 : ("]" : String).data = [']'] := rfl
  simp only [String.data_append, encStr_data, e1, e2, e3, e4, d1, d2, d3, d4, d5, d6,
    joinSep_events_data, charsBucket, List.cons_append, List.nil_append, List.append_assoc]

theorem dumps_mkPayload_data (m : PayloadMeta) (tE tmE : List (String × String × String)) :
    (dumps (mkPayload m tE tmE)).data = charsPayload m tE tmE := by
  have h : dumps (mkPayload m tE tmE)
      = "\x7b" ++ ((encStr "today" ++ ": " ++ dumps (mkBucket m.tDate m.tYear m.tTz tE)) ++ ", "
        ++ (encStr "tomorrow" ++ ": " ++ dumps (mkBucket m.tmDate m.tmYear m.tmTz tmE)))
        ++ "\x7d" := by
    show dumps (.obj [("today", mkBucket m.tDate m.tYear m.tTz tE),
      ("tomorrow", mkBucket m.tmDate m.tmYear m.tmTz tmE)]) = _
    simp only [dumps, dumpsFields, sortPairs_payload, List.map, joinSep]
  rw [h]
  have e1 : escString "today" = ['t', 'o', 'd', 'a', 'y'] := rfl
  have e2 : escString "tomorrow" = ['t', 'o', 'm', 'o', 'r', 'r', 'o', 'w'] := rfl
  have d1 : ("\x7b" : String).data = ['\x7b'] := rfl
  have d2 : (": " : String).data = [':', ' '] := rfl
  have d3 : (", " : String).data = [',', ' '] := rfl
  have d4 : ("\x7d" : String).data = ['\x7d'] := rfl
  simp only [String.data_append, encStr_data, dumps_mkBucket_data, e1, e2, d1, d2, d3, d4,
    charsPayload, List.cons_append, List.nil_append, List.append_assoc]

theorem evMaxLen_bound (evs : List (String × String × String)) : ∀ t ∈ evs,
    t.1.data.length ≤ evMaxLen evs ∧ t.2.1.data.length ≤ evMaxLen evs
      ∧ t.2.2.data.length ≤ evMaxLen evs := by
  induction evs with
  | nil => intro t ht; exact absurd ht (List.not_mem_nil t)
  | cons u us ih =>
    intro t ht
    rcases List.mem_cons.mp ht with h1 | h2
    · subst h1
      have hA : max t.1.data.length (max t.2.1.data.length t.2.2.data.length)
          ≤ evMaxLen (t :: us) := le_max_left _ _
      exact ⟨le_trans (le_max_left _ _) hA,
        le_trans (le_trans (le_max_left _ _) (le_max_right _ _)) hA,
        le_trans (le_trans (le_max_right _ _) (le_max_right _ _)) hA⟩
    · obtain ⟨a, b, c⟩ := ih t h2
      have hB : evMaxLen us ≤ evMaxLen (u :: us) := le_max_right _ _
      exact ⟨le_trans a hB, le_trans b hB, le_trans c hB⟩

/-- Serialized event runs are uniquely decodable. -/
theorem charsEvents_inj (tE1 tE2 : List (String × String × String)) (R1 R2 : List Char)
    (h : charsEvents tE1 ++ ']' :: R1 = charsEvents tE2 ++ ']' :: R2) :
    tE1 = tE2 ∧ R1 = R2 := by
  have hm1 := le_max_left (evMaxLen tE1) (evMaxLen tE2)
  have hm2 := le_max_right (evMaxLen tE1) (evMaxLen tE2)
  have hn1 := le_max_left tE1.length tE2.length
  have hn2 := le_max_right tE1.length tE2.length
  have h1 := decEvents_round tE1 R1 (max tE1.length tE2.length + 1)
    (max (evMaxLen tE1) (evMaxLen tE2) + 1) (by omega)
    (fun t ht => by
      obtain ⟨a, b, c⟩ := evMaxLen_bound tE1 t ht
      exact ⟨by omega, by omega, by omega⟩)
  have h2 := decEvents_round tE2 R2 (max tE1.length tE2.length + 1)
    (max (evMaxLen tE1) (evMaxLen tE2) + 1) (by omega)
    (fun t ht => by
      obtain ⟨a, b, c⟩ := evMaxLen_bound tE2 t ht
      exact ⟨by omega, by omega, by omega⟩)
  rw [h] at h1
  have h3 := h1.symm.trans h2
  simp only [Option.some.injEq, Prod.mk.injEq] at h3
  exact ⟨h3.1, h3.2⟩

/-- Serialized buckets with identical metadata are uniquely decodable in
their event lists. -/
theorem charsBucket_inj (D : String) (Y : Int) (Z : String)
    (tE1 tE2 : List (String × String × String)) (X1 X2 : List Char)
    (h : charsBucket D Y Z tE1 ++ X1 = charsBucket D Y Z tE2 ++ X2) :
    tE1 = tE2 ∧ X1 = X2 := by
  unfold charsBucket at h
  simp only [List.cons_append, List.append_assoc, List.nil_append, List.cons.injEq,
    true_and, List.append_cancel_left_eq] at h
  obtain ⟨hE, hrest⟩ := charsEvents_inj tE1 tE2 _ _ h
  simp only [List.cons.injEq, true_and, List.append_cancel_left_eq] at hrest
  exact ⟨hE, hrest⟩

theorem dumps_mkPayload_inj (m : PayloadMeta) (tE1 tmE1 tE2 tmE2 : List (String × String × String))
    (h : dumps (mkPayload m tE1 tmE1) = dumps (mkPayload m tE2 tmE2)) :
    tE1 = tE2 ∧ tmE1 = tmE2 := by
  have hd : (dumps (mkPayload m tE1 tmE1)).data = (dumps (mkPayload m tE2 tmE2)).data := by
    rw [h]
  rw [dumps_mkPayload_data, dumps_mkPayload_data] at hd
  unfold charsPayload at hd
  simp only [List.cons.injEq, true_and] at hd
  obtain ⟨hE, hrest⟩ := charsBucket_inj _ _ _ _ _ _ _ hd
  simp only [List.cons.injEq, true_and] at hrest
  obtain ⟨hEm, _⟩ := charsBucket_inj _ _ _ _ _ _ _ hrest
  exact ⟨hE, hEm⟩

/-- Payloads differing in an event field or in event order have different
canonical serializations. -/
theorem dumps_event_diff (p q : Json) (h : EventFieldDiff p q) : dumps p ≠ dumps q := by
  obtain ⟨m, tE1, tmE1, tE2, tmE2, hp, hq, hne⟩ := h
  subst hp
  subst hq
  intro hd
  obtain ⟨h1, h2⟩ := dumps_mkPayload_inj m tE1 tmE1 tE2 tmE2 hd
  rcases hne with hne | hne
  · exact hne h1
  · exact hne h2

/-! ### C6 counterexample: MD5 has finitely many digests, payloads do not -/

theorem bytesToNat_inj : ∀ bs1 bs2 : List Nat, bs1.length = bs2.length →
    (∀ b ∈ bs1, b < 256) → (∀ b ∈ bs2, b < 256) →
    bytesToNat bs1 = bytesToNat bs2 → bs1 = bs2 := by
  intro bs1
  induction bs1 with
  | nil =>
    intro bs2 hl _ _ _
    cases bs2 with
    | nil => rfl
    | cons b r => exact absurd hl (by simp)
  | cons b1 r1 ih =>
    intro bs2 hl hb1 hb2 hv
    cases bs2 with
    | nil => exact absurd hl (by simp)
    | cons b2 r2 =>
      have hbb1 : b1 < 256 := hb1 b1 (List.mem_cons_self _ _)
      have hbb2 : b2 < 256 := hb2 b2 (List.mem_cons_self _ _)
      have hv2 : b1 + 256 * bytesToNat r1 = b2 + 256 * bytesToNat r2 := hv
      have hb : b1 = b2 := by omega
      have hr : bytesToNat r1 = bytesToNat r2 := by omega
      have := ih r2 (by simpa using hl) (fun x hx => hb1 x (List.mem_cons_of_mem _ hx))
        (fun x hx => hb2 x (List.mem_cons_of_mem _ hx)) hr
      rw [hb, this]

theorem bytesToNat_lt : ∀ bs : List Nat, (∀ b ∈ bs, b < 256) →
    bytesToNat bs < 256 ^ bs.length := by
  intro bs
  induction bs with
  | nil => intro _; simp [bytesToNat]
  | cons b r ih =>
    intro hb
    have h1 : b < 256 := hb b (List.mem_cons_self _ _)
    have h2 := ih (fun x hx => hb x (List.mem_cons_of_mem _ hx))
    show b + 256 * bytesToNat r < 256 ^ (r.length + 1)
    have : 256 ^ (r.length + 1) = 256 * 256 ^ r.length := by ring
    omega

theorem word4LE_lt (x : Nat) : ∀ b ∈ word4LE x, b < 256 := by
  intro b hb
  simp only [word4LE, List.mem_cons, List.not_mem_nil, or_false] at hb
  rcases hb with h | h | h | h <;> subst h <;> omega

theorem md5Digest_bytes (msg : List Nat) :
    (md5Digest msg).length = 16 ∧ ∀ b ∈ md5Digest msg, b < 256 := by
  constructor
  · simp [md5Digest, word4LE]
  · intro b hb
    unfold md5Digest at hb
    simp only [List.mem_append] at hb
    rcases hb with ((h | h) | h) | h <;> exact word4LE_lt _ b h

theorem pigeonTriple_ne (j k : Nat) (hjk : j ≠ k) : pigeonTriple j ≠ pigeonTriple k := by
  intro h
  unfold pigeonTriple at h
  have := congrArg (fun t => t.2.2.data.length) h
  simp only [List.length_replicate] at this
  exact hjk this

theorem checksum_eq_of_digest_eq (p q : Json)
    (h : md5Digest (strUtf8 (dumps p)) = md5Digest (strUtf8 (dumps q))) :
    payload_checksum p = payload_checksum q := by
  unfold payload_checksum md5Hex
  rw [h]

theorem md5_collision_exists : ∃ j k : Nat, j ≠ k ∧
    payload_checksum (pigeonPayload j) = payload_checksum (pigeonPayload k) := by
  classical
  have hcard : Fintype.card (Fin (2 ^ 128)) < Fintype.card (Fin (2 ^ 128 + 1)) := by
    rw [Fintype.card_fin, Fintype.card_fin]
    exact Nat.lt_succ_self _
  obtain ⟨x, y, hxy, hfeq⟩ := Fintype.exists_ne_map_eq_of_card_lt
    (fun i : Fin (2 ^ 128 + 1) =>
      (⟨bytesToNat (md5Digest (strUtf8 (dumps (pigeonPayload i.val)))), by
        have hb := md5Digest_bytes (strUtf8 (dumps (pigeonPayload i.val)))
        have := bytesToNat_lt _ hb.2
        rw [hb.1] at this
        exact lt_of_lt_of_le this (by norm_num)⟩ : Fin (2 ^ 128)))
    hcard
  refine ⟨x.val, y.val, fun h => hxy (Fin.ext h), ?_⟩
  have hnat : bytesToNat (md5Digest (strUtf8 (dumps (pigeonPayload x.val))))
      = bytesToNat (md5Digest (strUtf8 (dumps (pigeonPayload y.val)))) := by
    have := congrArg Fin.val hfeq
    simpa using this
  have hbx := md5Digest_bytes (strUtf8 (dumps (pigeonPayload x.val)))
  have hby := md5Digest_bytes (strUtf8 (dumps (pigeonPayload y.val)))
  exact checksum_eq_of_digest_eq _ _
    (bytesToNat_inj _ _ (hbx.1.trans hby.1.symm) hbx.2 hby.2 hnat)

theorem pigeonPayload_diff (j k : Nat) (hjk : j ≠ k) :
    EventFieldDiff (pigeonPayload j) (pigeonPayload k) := by
  refine ⟨pigeonMeta, [pigeonTriple j], [], [pigeonTriple k], [], rfl, rfl, Or.inl ?_⟩
  intro h
  exact pigeonTriple_ne j k hjk (by injection h)

/-- Every payload `build_payload` returns has the `mkPayload` shape. -/
theorem build_payload_mkPayload (evs : List NEvent) (td tm : Date) :
    build_payload evs td tm
      = mkPayload ⟨strftimeADB td, (td.year : Int), DEFAULT_TIMEZONE,
                   strftimeADB tm, (tm.year : Int), DEFAULT_TIMEZONE⟩
          ((evs.filter (fun e => e.start.toDate == td)).map
            (fun e => (fmtTime e.start, fmtTime e.endTime, e.summary)))
          ((evs.filter (fun e => !(e.start.toDate == td))).map
            (fun e => (fmtTime e.start, fmtTime e.endTime, e.summary))) := by
  unfold build_payload mkPayload mkBucket
  rw [buildStep_foldl evs td [] []]
  simp only [List.nil_append, List.map_map]
  rfl

/-- C6 counterexample: the fingerprint is an MD5 over finitely many digests
while payloads differing only in an event summary are unbounded in number,
so two of them must share a fingerprint — the claim's "the Fingerprint
differs" half is false. -/
theorem fingerprint_c6_counterexample :
    ¬ ((∀ p q : Json, JsonEquiv p q → payload_checksum p = payload_checksum q)
      ∧ (∀ p q : Json, EventFieldDiff p q → payload_checksum p ≠ payload_checksum q)) := by
  rintro ⟨-, hB⟩
  obtain ⟨j, k, hjk, heq⟩ := md5_collision_exists
  exact hB (pigeonPayload j) (pigeonPayload k) (pigeonPayload_diff j k hjk) heq

/-- C6 (amended): the fingerprint is invariant under re-ordering of a
payload's top-level or bucket-level mapping keys; and payloads that differ
in some event's start, end or summary, or in the order of events within a
bucket, have different canonical JSON serializations — so their
fingerprints differ unless the two serializations are an MD5 collision
(which the pigeonhole argument shows must exist for some pair, though none
is expected to ever arise in practice). -/
theorem fingerprint_c6 :
    (∀ p q : Json, JsonEquiv p q → payload_checksum p = payload_checksum q)
    ∧ (∀ p q : Json, EventFieldDiff p q → dumps p ≠ dumps q) :=
  ⟨payload_checksum_equiv, dumps_event_diff⟩

/-- Witness for C6: a concrete key re-ordering with equal checksums, and a
concrete one-field difference with different serializations. -/
theorem fingerprint_c6_witness :
    payload_checksum (Json.obj [("a", .num 1), ("b", .num 2)])
        = payload_checksum (Json.obj [("b", .num 2), ("a", .num 1)])
    ∧ dumps (mkPayload ⟨"Sat", 2026, "LA", "Sun", 2026, "LA"⟩
          [("1:00 PM", "2:00 PM", "A")] [])
        ≠ dumps (mkPayload ⟨"Sat", 2026, "LA", "Sun", 2026, "LA"⟩
          [("1:00 PM", "2:00 PM", "B")] []) := by
  constructor
  · apply fingerprint_c6.1
    refine ⟨[("a", Json.num 1), ("b", Json.num 2)], ?_, ?_⟩
    · simp [JsonFieldsEquiv, JsonEquiv]
    · exact List.Perm.swap _ _ _
  · apply fingerprint_c6.2
    exact ⟨_, _, _, _, _, rfl, rfl, Or.inl (by decide)⟩

end Webcal
